import Mathlib

/-!
# knative-gcp: Topic reconciler and broker ingress handler

A shallow embedding of

* `pkg/reconciler/pubsub/topic/topic.go` (`ReconcileKind`, `reconcileTopic`,
  `deleteTopic`, `reconcilePublisher`, `FinalizeKind`),
* `pkg/broker/ingress/handler.go` (`ServeHTTP`, `toEvent`, `reportMetrics`),
* `pkg/apis/events/v1alpha1/cloudstoragesource_lifecycle.go` (the readiness
  methods of `CloudStorageSourceStatus`), and
* `resources.MakeTopic`, as its tests in `pkg/reconciler/pubsub/resources`
  describe it.

Go code that mutates its receiver is rendered as explicit state passing: every
function returns the updated object together with the ordered log of the calls
it made on its collaborators (Pub/Sub client, service lister, serving client,
response writer, decouple sink).  The collaborators themselves are parameters:
each is a function from the arguments of the call to the answer the call gets.
-/

set_option autoImplicit false

/-! ## Go values shared by both packages -/

/-- A Go `error` value, reduced to what the two packages observe of it. -/
structure GoError where
  /-- The text of `err.Error()`. -/
  msg : String
  /-- The code of the gRPC status carried by the error when `gstatus.FromError`
  answers `ok`, and `none` when the error carries no gRPC status. -/
  grpcCode : Option Nat := none
  /-- The answer of `apierrors.IsNotFound(err)`. -/
  notFound : Bool := false
  deriving DecidableEq, Repr

/-- The pair `(value, error)` returned by a fallible Go call: either the value
with a nil error, or a non-nil error. -/
inductive GoResult (α : Type) where
  | ok (v : α)
  | fail (err : GoError)
  deriving DecidableEq, Repr

/-- The gRPC code `codes.AlreadyExists`. -/
def codes_AlreadyExists : Nat := 6

/-! ## Conditions -/

/-- The tri-state status of a condition: `corev1.ConditionTrue`,
`corev1.ConditionFalse`, `corev1.ConditionUnknown`. -/
inductive ConditionStatus where
  | ConditionTrue
  | ConditionFalse
  | ConditionUnknown
  deriving DecidableEq, Repr

/-- A condition `{type, status, reason, message}`.  The last-transition time of
the spec's data model is not represented. -/
structure Condition where
  ctype : String
  status : ConditionStatus
  reason : String := ""
  message : String := ""
  deriving DecidableEq, Repr

namespace Conditions

/-- Modelled from the spec: the condition-set accessor `GetCondition` ("each
known condition type appears at most once"): the condition stored under a
type, if any. -/
def GetCondition (cs : List Condition) (t : String) : Option Condition :=
  cs.find? (fun c => c.ctype = t)

/-- Modelled from the spec: the condition-set writer `SetCondition` ("a later
Mark call always overwrites, regardless of prior state"; "conditions are never
deleted, only transitioned"): the condition of that type is replaced where it
stands, or appended when the type is not present yet. -/
def SetCondition (cs : List Condition) (c : Condition) : List Condition :=
  if cs.any (fun d => d.ctype = c.ctype) then
    cs.map (fun d => if d.ctype = c.ctype then c else d)
  else cs ++ [c]

/-- Modelled from the spec: the condition-set operation `MarkTrue`. -/
def MarkTrue (cs : List Condition) (t : String) : List Condition :=
  SetCondition cs { ctype := t, status := .ConditionTrue }

/-- Modelled from the spec: the condition-set operation `MarkFalse`, with its
reason/message pair. -/
def MarkFalse (cs : List Condition) (t reason message : String) : List Condition :=
  SetCondition cs { ctype := t, status := .ConditionFalse, reason := reason, message := message }

/-- Modelled from the spec: the condition-set operation `MarkUnknown`. -/
def MarkUnknown (cs : List Condition) (t reason message : String) : List Condition :=
  SetCondition cs { ctype := t, status := .ConditionUnknown, reason := reason, message := message }

/-- Modelled from the spec: the condition-set operation `InitializeConditions`
over a declared dependency set ("conditions already set retain their value;
unset ones become Unknown"). -/
def InitializeConditions (deps : List String) (cs : List Condition) : List Condition :=
  deps.foldl
    (fun acc t =>
      match GetCondition acc t with
      | some _ => acc
      | none => SetCondition acc { ctype := t, status := .ConditionUnknown })
    cs

/-- Whether the condition of a type is present with status True. -/
def IsTrue (cs : List Condition) (t : String) : Bool :=
  match GetCondition cs t with
  | some c => c.status = .ConditionTrue
  | none => false

/-- Whether the condition of a type is present with status False. -/
def IsFalse (cs : List Condition) (t : String) : Bool :=
  match GetCondition cs t with
  | some c => c.status = .ConditionFalse
  | none => false

/-- Modelled from the spec: the aggregate `IsHappy` over a declared dependency
set ("happy iff every condition in the dependent set is True"). -/
def IsHappy (deps : List String) (cs : List Condition) : Bool :=
  deps.all (fun t => IsTrue cs t)

end Conditions

/-! ## Kubernetes objects -/

/-- A `metav1.OwnerReference`. -/
structure OwnerReference where
  APIVersion : String := ""
  Kind : String := ""
  Name : String := ""
  UID : String := ""
  Controller : Option Bool := none
  BlockOwnerDeletion : Option Bool := none
  deriving DecidableEq, Repr

/-- A `duckv1.Addressable`: a possibly nil URL. -/
structure Addressable where
  URL : Option String := none
  deriving DecidableEq, Repr

/-- The part of `servingv1.ServiceStatus` read by the reconciler: its
conditions and its possibly nil address. -/
structure ServiceStatus where
  Conditions : List Condition := []
  Address : Option Addressable := none
  deriving DecidableEq, Repr

/-- A `servingv1.Service`; its spec is of a type `σ` left open. -/
structure Service (σ : Type) where
  Name : String := ""
  Namespace : String := ""
  Labels : List (String × String) := []
  OwnerReferences : List OwnerReference := []
  Spec : σ
  Status : ServiceStatus := {}
  deriving DecidableEq, Repr

/-- The condition type `apis.ConditionReady`. -/
def ConditionReady : String := "Ready"

/-- The accessor `ServiceStatus.GetCondition`. -/
def ServiceStatus.GetCondition (ss : ServiceStatus) (t : String) : Option Condition :=
  Conditions.GetCondition ss.Conditions t

/-- The predicate `ServiceStatus.IsReady`: the service's Ready condition is
True. -/
def ServiceStatus.IsReady (ss : ServiceStatus) : Bool :=
  Conditions.IsTrue ss.Conditions ConditionReady

/-! ## The Topic resource -/

/-- Modelled from the spec: the policy value `CreateDelete`, the constant
`v1alpha1.TopicPolicyCreateDelete` of the absent `topic_types.go`. -/
def TopicPolicyCreateDelete : String := "CreateDelete"

/-- Modelled from the spec: the policy value `NoCreateNoDelete`, the constant
`v1alpha1.TopicPolicyNoCreateNoDelete` of the absent `topic_types.go`. -/
def TopicPolicyNoCreateNoDelete : String := "NoCreateNoDelete"

/-- The fields of `v1alpha1.TopicSpec` read by the reconciler.  The propagation
policy is a Go string type. -/
structure TopicSpec where
  Project : String := ""
  Topic : String := ""
  PropagationPolicy : String := ""
  deriving DecidableEq, Repr

/-- The fields of `v1alpha1.TopicStatus`. -/
structure TopicStatus where
  ProjectID : String := ""
  TopicID : String := ""
  Conditions : List Condition := []
  ObservedGeneration : Int := 0
  Address : Option String := none
  deriving DecidableEq, Repr

/-- A `v1alpha1.Topic`. -/
structure Topic where
  Name : String := ""
  Namespace : String := ""
  UID : String := ""
  Generation : Int := 0
  Spec : TopicSpec := {}
  Status : TopicStatus := {}
  deriving DecidableEq, Repr

/-- Modelled from the spec: the type of the topic condition, the constant
`TopicConditionTopicExists` of the absent `topic_lifecycle.go`. -/
def TopicConditionTopicExists : String := "TopicExists"

/-- Modelled from the spec: the type of the publisher condition, the constant
`TopicConditionPublisherReady` of the absent `topic_lifecycle.go`. -/
def TopicConditionPublisherReady : String := "PublisherReady"

/-- Modelled from the spec: the dependency set of a Topic, `topicCondSet` of
the absent `topic_lifecycle.go`: the topic condition and the publisher
condition. -/
def topicCondSet : List String :=
  [TopicConditionTopicExists, TopicConditionPublisherReady]

namespace TopicStatus

/-- Modelled from the spec: `TopicStatus.InitializeConditions` of the absent
`topic_lifecycle.go` ("Initialize conditions"). -/
def InitializeConditions (ts : TopicStatus) : TopicStatus :=
  { ts with Conditions := Conditions.InitializeConditions topicCondSet ts.Conditions }

/-- Modelled from the spec: `TopicStatus.MarkNoTopic` of the absent
`topic_lifecycle.go`: the topic condition becomes False with the reason and
message. -/
def MarkNoTopic (ts : TopicStatus) (reason message : String) : TopicStatus :=
  { ts with Conditions := Conditions.MarkFalse ts.Conditions TopicConditionTopicExists reason message }

/-- Modelled from the spec: `TopicStatus.MarkTopicReady` of the absent
`topic_lifecycle.go` ("mark the topic condition True"). -/
def MarkTopicReady (ts : TopicStatus) : TopicStatus :=
  { ts with Conditions := Conditions.MarkTrue ts.Conditions TopicConditionTopicExists }

/-- Modelled from the spec: `TopicStatus.MarkPublisherNotDeployed` of the
absent `topic_lifecycle.go`: the publisher condition becomes False with the
reason and message. -/
def MarkPublisherNotDeployed (ts : TopicStatus) (reason message : String) : TopicStatus :=
  { ts with
    Conditions := Conditions.MarkFalse ts.Conditions TopicConditionPublisherReady reason message }

/-- Modelled from the spec: `TopicStatus.PropagatePublisherStatus` of the
absent `topic_lifecycle.go` ("Propagate the service's own readiness into this
resource's publisher condition"); a service without a Ready condition leaves
the publisher condition as it is. -/
def PropagatePublisherStatus (ts : TopicStatus) (ss : ServiceStatus) : TopicStatus :=
  match ss.GetCondition ConditionReady with
  | none => ts
  | some sc =>
    match sc.status with
    | .ConditionTrue =>
      { ts with Conditions := Conditions.MarkTrue ts.Conditions TopicConditionPublisherReady }
    | .ConditionFalse =>
      { ts with
        Conditions :=
          Conditions.MarkFalse ts.Conditions TopicConditionPublisherReady sc.reason sc.message }
    | .ConditionUnknown =>
      { ts with
        Conditions :=
          Conditions.MarkUnknown ts.Conditions TopicConditionPublisherReady sc.reason sc.message }

/-- Modelled from the spec: `TopicStatus.SetAddress` of the absent
`topic_lifecycle.go` ("copy its externally reachable address into this
resource's status"). -/
def SetAddress (ts : TopicStatus) (url : Option String) : TopicStatus :=
  { ts with Address := url }

end TopicStatus

/-! ## The Topic reconciler (`pkg/reconciler/pubsub/topic/topic.go`) -/

namespace TopicReconciler

/-- The constant `deleteTopicFailed`. -/
def deleteTopicFailed : String := "TopicDeleteFailed"

/-- The constant `reconciledPublisherFailedReason`. -/
def reconciledPublisherFailedReason : String := "PublisherReconcileFailed"

/-- The constant `reconciledSuccessReason`. -/
def reconciledSuccessReason : String := "TopicReconciled"

/-- The constant `reconciledTopicFailedReason`. -/
def reconciledTopicFailedReason : String := "TopicReconcileFailed"

/-- The event type `corev1.EventTypeNormal`. -/
def EventTypeNormal : String := "Normal"

/-- The event type `corev1.EventTypeWarning`. -/
def EventTypeWarning : String := "Warning"

/-- A `reconciler.Event` as built by `reconciler.NewEvent`: event type, reason
and formatted message. -/
structure ReconcilerEvent where
  EventType : String
  Reason : String
  Message : String
  deriving DecidableEq, Repr

/-- The constructor `reconciler.NewEvent`, with the message already
formatted. -/
def NewEvent (eventtype reason message : String) : ReconcilerEvent :=
  { EventType := eventtype, Reason := reason, Message := message }

/-- The argument record `resources.PublisherArgs`. -/
structure PublisherArgs where
  Image : String
  Topic : Topic
  Labels : List (String × String)
  TracingConfig : String
  deriving DecidableEq, Repr

/-- One call made by the reconciler on a collaborator, with the answer it got.
The log of a run lists these in the order they were made. -/
inductive Call (σ : Type) where
  /-- The call `utils.ProjectID(project)`. -/
  | ProjectID (project : String) (res : GoResult String)
  /-- The call `r.createClientFn(ctx, projectID)`. -/
  | createClientFn (projectID : String) (err : Option GoError)
  /-- The call `client.Topic(id)`, which builds a topic handle. -/
  | Topic (id : String)
  /-- The call `t.Exists(ctx)` on the handle of topic `id`. -/
  | Exists (id : String) (res : GoResult Bool)
  /-- The call `client.CreateTopic(ctx, id)`. -/
  | CreateTopic (id : String) (err : Option GoError)
  /-- The call `t.Delete(ctx)` on the handle of topic `id`. -/
  | Delete (id : String) (err : Option GoError)
  /-- The call `client.Close()`. -/
  | Close
  /-- The call `r.serviceLister.Services(ns).Get(name)`. -/
  | ServicesGet (ns name : String) (res : GoResult (Service σ))
  /-- The call `ServingV1().Services(ns).Create(svc)`. -/
  | ServicesCreate (ns : String) (svc : Service σ) (res : GoResult (Service σ))
  /-- The call `ServingV1().Services(ns).Update(svc)`. -/
  | ServicesUpdate (ns : String) (svc : Service σ) (res : GoResult (Service σ))
  deriving DecidableEq, Repr

/-- The reconciler with its collaborators.  A collaborator is the function
from a call's arguments to the answer of that call; the Pub/Sub answers depend
on the project the client was created for. -/
structure Reconciler (σ : Type) where
  /-- The field `publisherImage`. -/
  publisherImage : String
  /-- The answer of `tracing.ConfigToJSON(r.tracingConfig)`: the JSON text and
  the error. -/
  tracingConfigToJSON : String × Option GoError
  /-- The helper `utils.ProjectID`. -/
  ProjectID : String → GoResult String
  /-- The field `createClientFn`; answers nil or the error. -/
  createClientFn : String → Option GoError
  /-- The backend answer to `client.Topic(id).Exists(ctx)`. -/
  Exists : (projectID id : String) → GoResult Bool
  /-- The backend answer to `client.CreateTopic(ctx, id)`. -/
  CreateTopic : (projectID id : String) → Option GoError
  /-- The backend answer to `client.Topic(id).Delete(ctx)`. -/
  Delete : (projectID id : String) → Option GoError
  /-- The answer of `r.serviceLister.Services(ns).Get(name)`. -/
  ServicesGet : (ns name : String) → GoResult (Service σ)
  /-- The answer of `ServingV1().Services(ns).Create(svc)`. -/
  ServicesCreate : (ns : String) → Service σ → GoResult (Service σ)
  /-- The answer of `ServingV1().Services(ns).Update(svc)`. -/
  ServicesUpdate : (ns : String) → Service σ → GoResult (Service σ)
  /-- The helper `resources.GeneratePublisherName`. -/
  GeneratePublisherName : Topic → String
  /-- The constant `controllerAgentName`. -/
  controllerAgentName : String
  /-- The helper `resources.GetLabels`. -/
  GetLabels : (controller name : String) → List (String × String)
  /-- The helper `resources.MakePublisher`. -/
  MakePublisher : PublisherArgs → Service σ
  /-- The comparison `equality.Semantic.DeepEqual` on service specs. -/
  SemanticDeepEqual : σ → σ → Bool
  /-- The rendering of a string by the verb `%q` of `fmt`. -/
  quote : String → String

/-- What a function of the reconciler leaves behind: the Topic as mutated, the
calls made, and the value returned. -/
structure Run (σ : Type) (α : Type) where
  topic : Topic
  log : List (Call σ)
  ret : α

/-- How `ReconcileKind` ends: it returns an event, or it panics on a nil
pointer. -/
inductive Outcome where
  | returned (ev : ReconcilerEvent)
  | panicked
  deriving DecidableEq, Repr

variable {σ : Type}

/-- The library function `metav1.GetControllerOf`: the first owner reference
whose `Controller` is set and true. -/
def GetControllerOf (refs : List OwnerReference) : Option OwnerReference :=
  refs.find? (fun ref => ref.Controller = some true)

/-- The library function `metav1.IsControlledBy`. -/
def IsControlledBy (obj : Service σ) (owner : Topic) : Bool :=
  match GetControllerOf obj.OwnerReferences with
  | none => false
  | some ref => ref.UID = owner.UID

/-- The method `Reconciler.reconcileTopic`. -/
def reconcileTopic (r : Reconciler σ) (topic : Topic) : Run σ (Option GoError) :=
  -- if topic.Status.ProjectID == "" { projectID, err := utils.ProjectID(topic.Spec.Project) ... }
  let resolved : Run σ (Option GoError) :=
    if topic.Status.ProjectID = "" then
      match r.ProjectID topic.Spec.Project with
      | .fail err =>
        { topic := topic, log := [.ProjectID topic.Spec.Project (.fail err)], ret := some err }
      | .ok projectID =>
        { topic := { topic with Status := { topic.Status with ProjectID := projectID } },
          log := [.ProjectID topic.Spec.Project (.ok projectID)], ret := none }
    else { topic := topic, log := [], ret := none }
  match resolved.ret with
  | some err => { topic := resolved.topic, log := resolved.log, ret := some err }
  | none =>
    let topic := resolved.topic
    -- client, err := r.createClientFn(ctx, topic.Status.ProjectID)
    match r.createClientFn topic.Status.ProjectID with
    | some err =>
      { topic := topic,
        log := resolved.log ++ [.createClientFn topic.Status.ProjectID (some err)],
        ret := some err }
    | none =>
      -- t := client.Topic(topic.Status.ProjectID)
      let t := topic.Status.ProjectID
      -- exists, err := t.Exists(ctx)
      let res := r.Exists topic.Status.ProjectID t
      let body : List (Call σ) × Option GoError :=
        match res with
        | .fail err => ([], some err)
        | .ok found =>
          if !found then
            if topic.Spec.PropagationPolicy = TopicPolicyNoCreateNoDelete then
              ([], some { msg := "Topic " ++ r.quote topic.Spec.Topic ++
                  " does not exist and the topic policy doesn't allow creation" })
            else
              -- t, err = client.CreateTopic(ctx, topic.Spec.Topic)
              let cerr := r.CreateTopic topic.Status.ProjectID topic.Spec.Topic
              let ret : Option GoError :=
                match cerr with
                | some err =>
                  -- if st, ok := gstatus.FromError(err); !ok
                  match err.grpcCode with
                  | none => some err
                  | some code =>
                    if code ≠ codes_AlreadyExists then some err else none
                | none => none
              ([.CreateTopic topic.Spec.Topic cerr], ret)
          else ([], none)
      -- defer client.Close()
      { topic := topic,
        log := resolved.log ++
          [.createClientFn topic.Status.ProjectID none, .Topic t, .Exists t res] ++
          body.1 ++ [.Close],
        ret := body.2 }

/-- The method `Reconciler.deleteTopic`. -/
def deleteTopic (r : Reconciler σ) (topic : Topic) : Run σ (Option GoError) :=
  if topic.Status.TopicID = "" then
    { topic := topic, log := [], ret := none }
  else
    -- client, err := r.createClientFn(ctx, topic.Status.ProjectID)
    match r.createClientFn topic.Status.ProjectID with
    | some err =>
      { topic := topic, log := [.createClientFn topic.Status.ProjectID (some err)],
        ret := some err }
    | none =>
      -- t := client.Topic(topic.Status.TopicID)
      let t := topic.Status.TopicID
      -- exists, err := t.Exists(ctx)
      let res := r.Exists topic.Status.ProjectID t
      let body : List (Call σ) × Option GoError :=
        match res with
        | .fail err => ([], some err)
        | .ok found =>
          if found then
            -- if err := t.Delete(ctx); err != nil
            let derr := r.Delete topic.Status.ProjectID t
            ([.Delete t derr], derr)
          else ([], none)
      -- defer client.Close()
      { topic := topic,
        log := [.createClientFn topic.Status.ProjectID none, .Topic t, .Exists t res] ++
          body.1 ++ [.Close],
        ret := body.2 }

/-- The method `Reconciler.reconcilePublisher`; the Go pair `(error,
*servingv1.Service)` is the returned `GoResult`. -/
def reconcilePublisher (r : Reconciler σ) (topic : Topic) : Run σ (GoResult (Service σ)) :=
  let name := r.GeneratePublisherName topic
  -- existing, err := r.serviceLister.Services(topic.Namespace).Get(name)
  let got := r.ServicesGet topic.Namespace name
  let getLog : List (Call σ) := [.ServicesGet topic.Namespace name got]
  -- the `existing` pointer after the first `if`, or the error returned there
  let checked : GoResult (Option (Service σ)) :=
    match got with
    | .fail err => if !err.notFound then .fail err else .ok none
    | .ok existing =>
      if !IsControlledBy existing topic then
        .fail { msg := "Topic " ++ r.quote topic.Name ++ " does not own publisher service: " ++
            r.quote name }
      else .ok (some existing)
  match checked with
  | .fail err => { topic := topic, log := getLog, ret := .fail err }
  | .ok existing =>
    -- tracingCfg, err := tracing.ConfigToJSON(r.tracingConfig); the error is only logged
    let tracingCfg := r.tracingConfigToJSON.1
    let desired := r.MakePublisher
      { Image := r.publisherImage,
        Topic := topic,
        Labels := r.GetLabels r.controllerAgentName topic.Name,
        TracingConfig := tracingCfg }
    match existing with
    | none =>
      let res := r.ServicesCreate topic.Namespace desired
      { topic := topic, log := getLog ++ [.ServicesCreate topic.Namespace desired res],
        ret := res }
    | some existing =>
      if !r.SemanticDeepEqual existing.Spec desired.Spec then
        -- existing.Spec = desired.Spec
        let existing := { existing with Spec := desired.Spec }
        let res := r.ServicesUpdate topic.Namespace existing
        { topic := topic, log := getLog ++ [.ServicesUpdate topic.Namespace existing res],
          ret := res }
      else { topic := topic, log := getLog, ret := .ok existing }

/-- The method `Reconciler.ReconcileKind`. -/
def ReconcileKind (r : Reconciler σ) (topic : Topic) : Run σ Outcome :=
  let topic := { topic with Status := topic.Status.InitializeConditions }
  let topic := { topic with Status := { topic.Status with ObservedGeneration := topic.Generation } }
  let rt := reconcileTopic r topic
  match rt.ret with
  | some err =>
    let message := "Failed to reconcile Pub/Sub topic: " ++ err.msg
    { topic := { rt.topic with
        Status := rt.topic.Status.MarkNoTopic reconciledTopicFailedReason message },
      log := rt.log,
      ret := .returned (NewEvent EventTypeWarning reconciledTopicFailedReason message) }
  | none =>
    let topic := { rt.topic with Status := rt.topic.Status.MarkTopicReady }
    -- Set the topic being used.
    let topic := { topic with Status := { topic.Status with TopicID := topic.Spec.Topic } }
    let rp := reconcilePublisher r topic
    match rp.ret with
    | .fail err =>
      let message := "Failed to reconcile Publisher: " ++ err.msg
      { topic := { topic with
          Status := topic.Status.MarkPublisherNotDeployed reconciledPublisherFailedReason message },
        log := rt.log ++ rp.log,
        ret := .returned (NewEvent EventTypeWarning reconciledPublisherFailedReason message) }
    | .ok svc =>
      -- Update the topic.
      let topic := { topic with Status := topic.Status.PropagatePublisherStatus svc.Status }
      let success := NewEvent EventTypeNormal reconciledSuccessReason
        ("Topic reconciled: \"" ++ topic.Namespace ++ "/" ++ topic.Name ++ "\"")
      if svc.Status.IsReady then
        -- topic.Status.SetAddress(svc.Status.Address.URL)
        match svc.Status.Address with
        | none => { topic := topic, log := rt.log ++ rp.log, ret := .panicked }
        | some address =>
          { topic := { topic with Status := topic.Status.SetAddress address.URL },
            log := rt.log ++ rp.log, ret := .returned success }
      else { topic := topic, log := rt.log ++ rp.log, ret := .returned success }

/-- The method `Reconciler.FinalizeKind`; a nil event is `none`. -/
def FinalizeKind (r : Reconciler σ) (topic : Topic) : Run σ (Option ReconcilerEvent) :=
  if topic.Spec.PropagationPolicy = TopicPolicyCreateDelete then
    let rd := deleteTopic r topic
    match rd.ret with
    | some err =>
      { topic := rd.topic, log := rd.log,
        ret := some (NewEvent EventTypeWarning deleteTopicFailed
          ("Failed to delete Pub/Sub topic: " ++ err.msg)) }
    | none => { topic := rd.topic, log := rd.log, ret := none }
  else { topic := topic, log := [], ret := none }

end TopicReconciler

/-! ## The broker ingress handler (`pkg/broker/ingress/handler.go`) -/

namespace Ingress

/-- The constant `decoupleSinkTimeout`, `30 * time.Second`, in nanoseconds. -/
def decoupleSinkTimeout : Nat := 30 * 1000000000

/-- The constant `EventArrivalTime`. -/
def EventArrivalTime : String := "knativearrivaltime"

/-- The method name `nethttp.MethodPost`. -/
def MethodPost : String := "POST"

/-- The status code `nethttp.StatusAccepted`. -/
def StatusAccepted : Nat := 202

/-- The status code `nethttp.StatusBadRequest`. -/
def StatusBadRequest : Nat := 400

/-- The status code `nethttp.StatusNotFound`. -/
def StatusNotFound : Nat := 404

/-- The status code `nethttp.StatusMethodNotAllowed`. -/
def StatusMethodNotAllowed : Nat := 405

/-- The status code `nethttp.StatusInternalServerError`. -/
def StatusInternalServerError : Nat := 500

/-- A `context.Context`, reduced to its deadline (absolute, in nanoseconds) and
whether it is already cancelled. -/
structure Context where
  deadline : Option Nat := none
  cancelled : Bool := false
  deriving DecidableEq, Repr

/-- The library function `context.WithTimeout(parent, timeout)` called at time
`now`: the child keeps the deadline of the parent when that one is earlier, and
inherits the cancellation of the parent. -/
def WithTimeout (parent : Context) (now timeout : Nat) : Context :=
  match parent.deadline with
  | some cur => if cur < now + timeout then parent else { parent with deadline := some (now + timeout) }
  | none => { parent with deadline := some (now + timeout) }

/-- The value of an event extension attribute. -/
inductive ExtensionValue where
  | text (s : String)
  | timestamp (t : Nat)
  deriving DecidableEq, Repr

/-- A `cev2.Event`. -/
structure Event where
  ID : String := ""
  Source : String := ""
  Type_ : String := ""
  DataContentType : String := ""
  Data : String := ""
  Extensions : List (String × ExtensionValue) := []
  deriving DecidableEq, Repr

/-- The method `Event.SetExtension`: the attribute is set, replacing an earlier
value under the same name. -/
def Event.SetExtension (e : Event) (name : String) (value : ExtensionValue) : Event :=
  { e with Extensions := e.Extensions.filter (fun kv => kv.1 ≠ name) ++ [(name, value)] }

/-- The values of `binding.Encoding`. -/
inductive Encoding where
  | EncodingBinary
  | EncodingStructured
  | EncodingEvent
  | EncodingUnknown
  deriving DecidableEq, Repr

/-- A non-nil `protocol.Result`, reduced to its text and to the answers of
`errors.Is` against `ResultACK` and against `ErrNotFound`. -/
structure ResultError where
  text : String := ""
  isACK : Bool := false
  isNotFound : Bool := false
  deriving DecidableEq, Repr

/-- A `protocol.Result`; nil is `none`. -/
abbrev Result := Option ResultError

/-- The library function `cev2.IsACK`: a nil result is an ACK, and so is a
result that wraps `ResultACK`. -/
def IsACK (res : Result) : Bool :=
  match res with
  | none => true
  | some e => e.isACK

/-- The test `errors.Is(res, ErrNotFound)`, for the sentinel `ErrNotFound` of
the package. -/
def IsErrNotFound (res : Result) : Bool :=
  match res with
  | none => false
  | some e => e.isNotFound

/-- The request as the handler reads it. -/
structure Request where
  Method : String := ""
  /-- The field `request.URL.Path`. -/
  Path : String := ""
  Header : List (String × String) := []
  Body : String := ""
  /-- The value of `request.Context()`. -/
  Context : Context := {}
  deriving DecidableEq, Repr

/-- The struct `reportArgs`. -/
structure reportArgs where
  namespace_ : String
  broker : String
  eventType : String
  responseCode : Nat
  deriving DecidableEq, Repr

/-- One call made by the handler on the response writer, the message, the
decouple sink or the stats reporter, with what it was given. -/
inductive Call where
  /-- The call `response.WriteHeader(code)`. -/
  | WriteHeader (code : Nat)
  /-- The call `response.Write([]byte(body))`. -/
  | Write (body : String)
  /-- The call `message.ReadEncoding()`. -/
  | ReadEncoding (enc : Encoding)
  /-- The call `binding.ToEvent(...)`. -/
  | ToEvent (event : Option Event) (err : Option GoError)
  /-- The call `message.Finish(nil)`. -/
  | Finish
  /-- The call `h.decouple.Send(ctx, ns, broker, event)`. -/
  | Send (ctx : Context) (ns broker : String) (event : Event) (res : Result)
  /-- The call `h.reporter.reportEventDispatchTime(ctx, args, d)`. -/
  | reportEventDispatchTime (args : reportArgs) (d : Int)
  /-- The call `cancel()`. -/
  | cancel
  deriving DecidableEq, Repr

/-- The handler with its collaborators, each a function from the arguments of a
call to its answer. -/
structure Handler where
  /-- The answer of `h.decouple.Send`. -/
  Send : Context → (ns broker : String) → Event → Result
  /-- The answer of `message.ReadEncoding()` on the message of a request. -/
  ReadEncoding : Request → Encoding
  /-- The answer of `binding.ToEvent` on the message of a request: the Go pair
  of a possibly nil event and a possibly nil error. -/
  ToEvent : Request → Option Event × Option GoError
  /-- The wall clock: the value of the k-th `time.Now()` of a request, in
  nanoseconds. -/
  Now : Nat → Nat
  /-- The rendering of a request by the verb `%+v`. -/
  fmtRequest : Request → String
  /-- The rendering of an event by the verb `%+v`. -/
  fmtEvent : Event → String
  /-- The rendering of a result by the verb `%v`. -/
  fmtResult : Result → String

/-- The separator-free pieces of a list of characters, as `strings.Split` cuts
them: one more piece than there are separators. -/
def splitChars (sep : Char) : List Char → List (List Char)
  | [] => [[]]
  | c :: cs =>
    if c = sep then [] :: splitChars sep cs
    else
      match splitChars sep cs with
      | [] => [[c]]
      | p :: ps => (c :: p) :: ps

/-- The library function `strings.Split(s, sep)` for a one-character
separator. -/
def strings_Split (s : String) (sep : Char) : List String :=
  (splitChars sep s.data).map String.mk

/-- What `toEvent` returns: the possibly nil event, the message and the status
code. -/
structure ToEventResult where
  event : Option Event
  msg : String
  statusCode : Nat
  deriving DecidableEq, Repr

/-- The method `Handler.toEvent`, with the calls it makes. -/
def toEvent (h : Handler) (request : Request) : ToEventResult × List Call :=
  -- If encoding is unknown, the message is not an event.
  if h.ReadEncoding request = .EncodingUnknown then
    let msg := "Encoding is unknown. Not a cloud event? request: " ++ h.fmtRequest request
    ({ event := none, msg := msg, statusCode := StatusBadRequest },
      [.ReadEncoding (h.ReadEncoding request), .Finish])
  else
    let converted := h.ToEvent request
    let log : List Call :=
      [.ReadEncoding (h.ReadEncoding request), .ToEvent converted.1 converted.2, .Finish]
    match converted.2 with
    | some err =>
      let msg := "Failed to convert request to event: " ++ err.msg
      ({ event := none, msg := msg, statusCode := StatusBadRequest }, log)
    | none => ({ event := converted.1, msg := "", statusCode := StatusAccepted }, log)

/-- The method `Handler.reportMetrics`: the one call on the stats reporter. -/
def reportMetrics (h : Handler) (ns broker : String) (event : Event) (statusCode : Nat)
    (start : Nat) : List Call :=
  let args : reportArgs :=
    { namespace_ := ns, broker := broker, eventType := event.Type_, responseCode := statusCode }
  [.reportEventDispatchTime args ((h.Now 3 : Int) - (start : Int))]

/-- The method `Handler.ServeHTTP`: the calls it makes, in order. -/
def ServeHTTP (h : Handler) (request : Request) : List Call :=
  let startTime := h.Now 0
  if request.Method ≠ MethodPost then
    [.WriteHeader StatusMethodNotAllowed]
  else
    -- Path should be in the form of "/<ns>/<broker>".
    let pieces := strings_Split request.Path '/'
    if pieces.length ≠ 3 then
      let msg := "Malformed request path. want: '/<ns>/<broker>'; got: " ++ request.Path ++ ".."
      [.WriteHeader StatusNotFound, .Write msg]
    else
      let ns := pieces.getD 1 ""
      let broker := pieces.getD 2 ""
      let converted := toEvent h request
      let statusCode := converted.1.statusCode
      match converted.1.event with
      | none => converted.2 ++ [.WriteHeader statusCode, .Write converted.1.msg]
      | some event =>
        let event := event.SetExtension EventArrivalTime (.timestamp (h.Now 1))
        let ctx := WithTimeout request.Context (h.Now 2) decoupleSinkTimeout
        let res := h.Send ctx ns broker event
        if !IsACK res then
          let msg := "Error publishing to PubSub for broker " ++ ns ++ "/" ++ broker ++
            ". event: " ++ h.fmtEvent event ++ ", err: " ++ h.fmtResult res ++ "."
          let statusCode :=
            if IsErrNotFound res then StatusNotFound else StatusInternalServerError
          converted.2 ++ [.Send ctx ns broker event res, .WriteHeader statusCode, .Write msg] ++
            reportMetrics h ns broker event statusCode startTime ++ [.cancel]
        else
          converted.2 ++ [.Send ctx ns broker event res, .WriteHeader statusCode] ++
            reportMetrics h ns broker event statusCode startTime ++ [.cancel]

/-- The status codes written to the response, in order. -/
def statusCodes (log : List Call) : List Nat :=
  log.filterMap (fun c => match c with | .WriteHeader code => some code | _ => none)

/-- The bodies written to the response, in order. -/
def bodies (log : List Call) : List String :=
  log.filterMap (fun c => match c with | .Write body => some body | _ => none)

/-- Whether a call is a `Send` on the decouple sink. -/
def isSend : Call → Bool
  | .Send _ _ _ _ _ => true
  | _ => false

/-- Whether a call is the conversion `binding.ToEvent`. -/
def isToEvent : Call → Bool
  | .ToEvent _ _ => true
  | _ => false

end Ingress

/-! ## Reading the call logs -/

namespace TopicReconciler

variable {σ : Type}

/-- Whether a call is `client.CreateTopic`. -/
def isCreateTopic : Call σ → Bool
  | .CreateTopic _ _ => true
  | _ => false

/-- Whether a call is `t.Delete`. -/
def isDelete : Call σ → Bool
  | .Delete _ _ => true
  | _ => false

/-- Whether a call is `r.createClientFn`. -/
def isCreateClient : Call σ → Bool
  | .createClientFn _ _ => true
  | _ => false

/-- Whether a call writes a service: `Create` or `Update` on the serving
client. -/
def isServiceWrite : Call σ → Bool
  | .ServicesCreate _ _ _ => true
  | .ServicesUpdate _ _ _ => true
  | _ => false

/-- The reconciler whose backend answers every `CreateTopic` with `answer`, all
other collaborators being those of `r`. -/
def withCreateTopic (r : Reconciler σ) (answer : Option GoError) : Reconciler σ :=
  { r with CreateTopic := fun _ _ => answer }

/-- The Topic as `ReconcileKind` hands it to `reconcileTopic`: conditions
initialised and the observed generation stamped. -/
def atEntry (topic : Topic) : Topic :=
  let topic := { topic with Status := topic.Status.InitializeConditions }
  { topic with Status := { topic.Status with ObservedGeneration := topic.Generation } }

/-- The Topic as `ReconcileKind` hands it to `reconcilePublisher` once the
topic step has succeeded: topic condition True and topic ID recorded. -/
def afterTopicStep (r : Reconciler σ) (topic : Topic) : Topic :=
  let rt := reconcileTopic r (atEntry topic)
  let topic := { rt.topic with Status := rt.topic.Status.MarkTopicReady }
  { topic with Status := { topic.Status with TopicID := topic.Spec.Topic } }

/-! ### Sample collaborators -/

/-- An error of the lister for a service that is not there. -/
def sampleNotFound : GoError :=
  { msg := "service not found", notFound := true }

/-- A gRPC status error with code `AlreadyExists`. -/
def sampleAlreadyExists : GoError :=
  { msg := "rpc error: code = AlreadyExists desc = Resource already exists in the project",
    grpcCode := some codes_AlreadyExists }

/-- A sample reconciler over services whose spec is a string: the project
resolves to the declared one, the client is created, the backend knows no
topic and creates and deletes without error, and no publisher service is
there yet. -/
def sampleReconciler : Reconciler String where
  publisherImage := "publisher-image"
  tracingConfigToJSON := ("", none)
  ProjectID := fun project => if project = "" then .fail { msg := "no project" } else .ok project
  createClientFn := fun _ => none
  Exists := fun _ _ => .ok false
  CreateTopic := fun _ _ => none
  Delete := fun _ _ => none
  ServicesGet := fun _ _ => .fail sampleNotFound
  ServicesCreate := fun _ svc => .ok svc
  ServicesUpdate := fun _ svc => .ok svc
  GeneratePublisherName := fun topic => "cre-" ++ topic.Name ++ "-publish"
  controllerAgentName := "topic-controller"
  GetLabels := fun controller name => [("receive-adapter", controller), ("topic", name)]
  MakePublisher := fun args =>
    { Name := "cre-" ++ args.Topic.Name ++ "-publish",
      Namespace := args.Topic.Namespace,
      Labels := args.Labels,
      OwnerReferences :=
        [{ Kind := "Topic", Name := args.Topic.Name, UID := args.Topic.UID,
           Controller := some true, BlockOwnerDeletion := some true }],
      Spec := args.Image ++ " " ++ args.Topic.Spec.Project ++ "/" ++ args.Topic.Spec.Topic ++
        " " ++ args.TracingConfig }
  SemanticDeepEqual := fun a b => a == b
  quote := fun s => "\"" ++ s ++ "\""

/-- A sample Topic that allows creation and deletion of its backing topic. -/
def sampleTopic : Topic :=
  { Name := "orders", Namespace := "ns1", UID := "uid-orders", Generation := 2,
    Spec := { Project := "my-project", Topic := "orders-topic",
              PropagationPolicy := TopicPolicyCreateDelete } }

/-- A sample Topic whose backing topic must pre-exist. -/
def sampleTopicNoCreate : Topic :=
  { sampleTopic with
    Spec := { sampleTopic.Spec with PropagationPolicy := TopicPolicyNoCreateNoDelete } }

end TopicReconciler

namespace Ingress

/-- A sample event. -/
def sampleEvent : Event :=
  { ID := "1", Source := "/src", Type_ := "sample.type", Data := "hello" }

/-- A sample handler: every request decodes to the sample event, and the sink
acknowledges. -/
def sampleHandler : Handler where
  Send := fun _ _ _ _ => none
  ReadEncoding := fun _ => .EncodingBinary
  ToEvent := fun _ => (some sampleEvent, none)
  Now := fun k => 1000 + k
  fmtRequest := fun request => request.Method ++ " " ++ request.Path
  fmtEvent := fun event => event.ID
  fmtResult := fun res => match res with | none => "<nil>" | some e => e.text

end Ingress

namespace TopicReconciler

variable {σ : Type}

/-- The service `desired` that `reconcilePublisher` computes with
`resources.MakePublisher`. -/
def desiredPublisher (r : Reconciler σ) (topic : Topic) : Service σ :=
  r.MakePublisher
    { Image := r.publisherImage,
      Topic := topic,
      Labels := r.GetLabels r.controllerAgentName topic.Name,
      TracingConfig := r.tracingConfigToJSON.1 }

/-- The reconciler whose lister finds the service `svc` under every name, all
other collaborators being those of `r`. -/
def withService (r : Reconciler σ) (svc : Service σ) : Reconciler σ :=
  { r with ServicesGet := fun _ _ => .ok svc }

/-- The reconciler whose backend answers every existence check with `answer`,
all other collaborators being those of `r`. -/
def withExists (r : Reconciler σ) (answer : GoResult Bool) : Reconciler σ :=
  { r with Exists := fun _ _ => answer }

/-- A sample reconciler whose backend knows exactly one topic, and that one is
named like the project, `my-project`: the existence check answers present for
that name and absent for every other, `orders-topic` included. -/
def sampleReconcilerProjectNamedTopic : Reconciler String :=
  { sampleReconciler with Exists := fun _ id => .ok (id == "my-project") }

/-- A sample publisher service controlled by some other object. -/
def sampleForeignService : Service String :=
  { Name := "cre-orders-publish", Namespace := "ns1",
    OwnerReferences := [{ Kind := "Deployment", Name := "other", UID := "uid-other",
                          Controller := some true }],
    Spec := "something else" }

/-- A sample publisher service controlled by the sample Topic, with an outdated
spec. -/
def sampleStaleService : Service String :=
  { Name := "cre-orders-publish", Namespace := "ns1",
    OwnerReferences := [{ Kind := "Topic", Name := "orders", UID := "uid-orders",
                          Controller := some true }],
    Spec := "old-image my-project/orders-topic ",
    Status := { Conditions := [{ ctype := "Ready", status := .ConditionTrue }],
                Address := some { URL := some "http://cre-orders-publish.ns1" } } }

/-- The sample Topic as it is after a first reconcile: project ID and topic
ID recorded. -/
def sampleTopicReconciled : Topic :=
  { sampleTopic with Status := { ProjectID := "my-project", TopicID := "orders-topic" } }

end TopicReconciler

namespace Ingress

/-- The handler whose decouple sink answers every `Send` with `res`, all other
collaborators being those of `h`. -/
def withSend (h : Handler) (res : Result) : Handler :=
  { h with Send := fun _ _ _ _ => res }

/-- A sample POST request to the broker `br1` of namespace `ns1`. -/
def sampleRequest : Request :=
  { Method := "POST", Path := "/ns1/br1", Body := "hello" }

/-- A sample sink result: the target is not found. -/
def sampleNotFoundResult : Result :=
  some { text := "not found", isNotFound := true }

end Ingress

namespace TopicReconciler

variable {σ : Type}

/-- The statements of `ReconcileKind` that follow the call of
`reconcilePublisher`, as a function of the Topic at that point and of what the
call returned: the Topic they leave and the outcome. -/
def afterPublisherStep (topic : Topic) (res : GoResult (Service σ)) : Topic × Outcome :=
  match res with
  | .fail err =>
    let message := "Failed to reconcile Publisher: " ++ err.msg
    ({ topic with
        Status := topic.Status.MarkPublisherNotDeployed reconciledPublisherFailedReason message },
      .returned (NewEvent EventTypeWarning reconciledPublisherFailedReason message))
  | .ok svc =>
    let topic := { topic with Status := topic.Status.PropagatePublisherStatus svc.Status }
    let success := NewEvent EventTypeNormal reconciledSuccessReason
      ("Topic reconciled: \"" ++ topic.Namespace ++ "/" ++ topic.Name ++ "\"")
    if svc.Status.IsReady then
      match svc.Status.Address with
      | none => (topic, .panicked)
      | some address =>
        ({ topic with Status := topic.Status.SetAddress address.URL }, .returned success)
    else (topic, .returned success)

/-- What the statements of `ReconcileKind` after the topic step leave alone:
the topic ID, the project ID, the observed generation and the topic
condition. -/
def PublisherOnly (a b : TopicStatus) : Prop :=
  b.TopicID = a.TopicID ∧ b.ProjectID = a.ProjectID ∧
  b.ObservedGeneration = a.ObservedGeneration ∧
  Conditions.GetCondition b.Conditions TopicConditionTopicExists =
    Conditions.GetCondition a.Conditions TopicConditionTopicExists

end TopicReconciler

namespace TopicReconciler

variable {σ : Type}

/-- The publisher condition that the statements of `ReconcileKind` after the
publisher step write, if they write one, as a function of what the publisher
step returned. -/
def publisherMark (res : GoResult (Service σ)) : Option Condition :=
  match res with
  | .fail err =>
    some { ctype := TopicConditionPublisherReady, status := .ConditionFalse,
           reason := reconciledPublisherFailedReason,
           message := "Failed to reconcile Publisher: " ++ err.msg }
  | .ok svc =>
    match svc.Status.GetCondition ConditionReady with
    | none => none
    | some sc =>
      match sc.status with
      | .ConditionTrue => some { ctype := TopicConditionPublisherReady, status := .ConditionTrue }
      | .ConditionFalse =>
        some { ctype := TopicConditionPublisherReady, status := .ConditionFalse,
               reason := sc.reason, message := sc.message }
      | .ConditionUnknown =>
        some { ctype := TopicConditionPublisherReady, status := .ConditionUnknown,
               reason := sc.reason, message := sc.message }

/-- The address that the statements of `ReconcileKind` after the publisher step
write, if they write one. -/
def addressWritten (res : GoResult (Service σ)) : Option (Option String) :=
  match res with
  | .fail _ => none
  | .ok svc =>
    if svc.Status.IsReady then
      match svc.Status.Address with
      | none => none
      | some address => some address.URL
    else none

/-- A list of conditions after an optional write. -/
def applyMark (cs : List Condition) (mark : Option Condition) : List Condition :=
  match mark with
  | none => cs
  | some d => Conditions.SetCondition cs d

end TopicReconciler

/-! ## Further readings of the call logs -/

namespace TopicReconciler

variable {σ : Type}

/-- Whether a call is `client.Close`. -/
def isClose : Call σ → Bool
  | .Close => true
  | _ => false

/-- Whether a call is a `createClientFn` that returned a client (a nil
error). -/
def isClientCreated : Call σ → Bool
  | .createClientFn _ none => true
  | _ => false

/-- Whether a call is a step of `reconcileTopic` that failed with `err` in a
way the function does not tolerate: the project resolution, the client
creation, the existence check, or a create whose error is not a gRPC status of
code AlreadyExists. -/
def topicStepFailure (c : Call σ) (err : GoError) : Prop :=
  (∃ project, c = .ProjectID project (.fail err)) ∨
  (∃ projectID, c = .createClientFn projectID (some err)) ∨
  (∃ id, c = .Exists id (.fail err)) ∨
  (∃ id, c = .CreateTopic id (some err) ∧ err.grpcCode ≠ some codes_AlreadyExists)

/-- The reconciler whose client factory answers every call with `answer`, all
other collaborators being those of `r`. -/
def withCreateClient (r : Reconciler σ) (answer : Option GoError) : Reconciler σ :=
  { r with createClientFn := fun _ => answer }

end TopicReconciler

namespace Ingress

/-- The tags of the samples handed to the stats reporter, in order. -/
def metricSamples (log : List Call) : List reportArgs :=
  log.filterMap (fun c => match c with | .reportEventDispatchTime args _ => some args | _ => none)

/-- A sample GET request to the broker `br1` of namespace `ns1`. -/
def sampleGetRequest : Request :=
  { Method := "GET", Path := "/ns1/br1", Body := "hello" }

/-- A sample sink result: the publish failed for some other reason. -/
def sampleFailedResult : Result :=
  some { text := "deadline exceeded" }

end Ingress

/-! ## The CloudStorageSource status (`cloudstoragesource_lifecycle.go`) -/

namespace Events

/-- Modelled from the spec: the condition type `duckv1alpha1.PullSubscriptionReady`
of the absent `duck/v1alpha1` package. -/
def PullSubscriptionReady : String := "PullSubscriptionReady"

/-- Modelled from the spec: the condition type `duckv1alpha1.TopicReady` of the
absent `duck/v1alpha1` package. -/
def TopicReady : String := "TopicReady"

/-- Modelled from the spec: the condition type `NotificationReady` of the
absent `cloudstoragesource_types.go`. -/
def NotificationReady : String := "NotificationReady"

/-- Modelled from the spec: the dependency set `storageCondSet` of the absent
`cloudstoragesource_types.go` ("a statically declared dependency set"): the
pull subscription, the topic and the notification. -/
def storageCondSet : List String :=
  [PullSubscriptionReady, TopicReady, NotificationReady]

/-- The fields of `CloudStorageSourceStatus` that its lifecycle methods read or
write. -/
structure CloudStorageSourceStatus where
  Conditions : List Condition := []
  ProjectID : String := ""
  TopicID : String := ""
  NotificationID : String := ""
  deriving DecidableEq, Repr

namespace CloudStorageSourceStatus

/-- The method `GetCondition`. -/
def GetCondition (s : CloudStorageSourceStatus) (t : String) : Option Condition :=
  Conditions.GetCondition s.Conditions t

/-- The method `IsReady`: `storageCondSet.Manage(s).IsHappy()`. -/
def IsReady (s : CloudStorageSourceStatus) : Bool :=
  Conditions.IsHappy storageCondSet s.Conditions

/-- The method `InitializeConditions`. -/
def InitializeConditions (s : CloudStorageSourceStatus) : CloudStorageSourceStatus :=
  { s with Conditions := Conditions.InitializeConditions storageCondSet s.Conditions }

/-- The method `MarkPullSubscriptionFailed`, the message already formatted. -/
def MarkPullSubscriptionFailed (s : CloudStorageSourceStatus) (reason message : String) :
    CloudStorageSourceStatus :=
  { s with Conditions := Conditions.MarkFalse s.Conditions PullSubscriptionReady reason message }

/-- The method `MarkPullSubscriptionUnknown`, the message already formatted. -/
def MarkPullSubscriptionUnknown (s : CloudStorageSourceStatus) (reason message : String) :
    CloudStorageSourceStatus :=
  { s with Conditions := Conditions.MarkUnknown s.Conditions PullSubscriptionReady reason message }

/-- The method `MarkPullSubscriptionReady`. -/
def MarkPullSubscriptionReady (s : CloudStorageSourceStatus) : CloudStorageSourceStatus :=
  { s with Conditions := Conditions.MarkTrue s.Conditions PullSubscriptionReady }

/-- The method `MarkTopicFailed`, the message already formatted. -/
def MarkTopicFailed (s : CloudStorageSourceStatus) (reason message : String) :
    CloudStorageSourceStatus :=
  { s with Conditions := Conditions.MarkFalse s.Conditions TopicReady reason message }

/-- The method `MarkTopicUnknown`, the message already formatted. -/
def MarkTopicUnknown (s : CloudStorageSourceStatus) (reason message : String) :
    CloudStorageSourceStatus :=
  { s with Conditions := Conditions.MarkUnknown s.Conditions TopicReady reason message }

/-- The method `MarkTopicReady`. -/
def MarkTopicReady (s : CloudStorageSourceStatus) : CloudStorageSourceStatus :=
  { s with Conditions := Conditions.MarkTrue s.Conditions TopicReady }

/-- The method `MarkNotificationNotReady`, the message already formatted. -/
def MarkNotificationNotReady (s : CloudStorageSourceStatus) (reason message : String) :
    CloudStorageSourceStatus :=
  { s with Conditions := Conditions.MarkFalse s.Conditions NotificationReady reason message }

/-- The method `MarkNotificationReady`: the notification ID is recorded, then
the condition is marked True. -/
def MarkNotificationReady (s : CloudStorageSourceStatus) (notificationID : String) :
    CloudStorageSourceStatus :=
  let s := { s with NotificationID := notificationID }
  { s with Conditions := Conditions.MarkTrue s.Conditions NotificationReady }

end CloudStorageSourceStatus

/-- One call of a `Mark*` method of `CloudStorageSourceStatus`, with its
arguments. -/
inductive Mark where
  | PullSubscriptionFailed (reason message : String)
  | PullSubscriptionUnknown (reason message : String)
  | PullSubscriptionReady
  | TopicFailed (reason message : String)
  | TopicUnknown (reason message : String)
  | TopicReady
  | NotificationNotReady (reason message : String)
  | NotificationReady (notificationID : String)
  deriving DecidableEq, Repr

/-- The status after one `Mark*` call. -/
def Mark.apply (s : CloudStorageSourceStatus) : Mark → CloudStorageSourceStatus
  | .PullSubscriptionFailed reason message => s.MarkPullSubscriptionFailed reason message
  | .PullSubscriptionUnknown reason message => s.MarkPullSubscriptionUnknown reason message
  | .PullSubscriptionReady => s.MarkPullSubscriptionReady
  | .TopicFailed reason message => s.MarkTopicFailed reason message
  | .TopicUnknown reason message => s.MarkTopicUnknown reason message
  | .TopicReady => s.MarkTopicReady
  | .NotificationNotReady reason message => s.MarkNotificationNotReady reason message
  | .NotificationReady notificationID => s.MarkNotificationReady notificationID

/-- The status after a sequence of `Mark*` calls, made in order. -/
def applyMarks (s : CloudStorageSourceStatus) (ops : List Mark) : CloudStorageSourceStatus :=
  ops.foldl Mark.apply s

/-- The condition type that a `Mark*` call writes. -/
def Mark.target : Mark → String
  | .PullSubscriptionFailed _ _ => Events.PullSubscriptionReady
  | .PullSubscriptionUnknown _ _ => Events.PullSubscriptionReady
  | .PullSubscriptionReady => Events.PullSubscriptionReady
  | .TopicFailed _ _ => Events.TopicReady
  | .TopicUnknown _ _ => Events.TopicReady
  | .TopicReady => Events.TopicReady
  | .NotificationNotReady _ _ => Events.NotificationReady
  | .NotificationReady _ => Events.NotificationReady

/-- Whether a `Mark*` call marks its condition True. -/
def Mark.marksTrue : Mark → Bool
  | .PullSubscriptionReady => true
  | .TopicReady => true
  | .NotificationReady _ => true
  | _ => false

/-- A sample status whose three dependent conditions are True already. -/
def sampleReadyStatus : CloudStorageSourceStatus :=
  { Conditions :=
      [{ ctype := PullSubscriptionReady, status := .ConditionTrue },
       { ctype := TopicReady, status := .ConditionTrue },
       { ctype := NotificationReady, status := .ConditionTrue }],
    NotificationID := "notification-1" }

end Events

/-! ## The Topic built for a source (`pkg/reconciler/pubsub/resources`) -/

namespace Resources

/-- A `corev1.SecretKeySelector`. -/
structure SecretKeySelector where
  Name : String := ""
  Key : String := ""
  deriving DecidableEq, Repr

/-- A `duckv1.KReference`. -/
structure KReference where
  APIVersion : String := ""
  Kind : String := ""
  Name : String := ""
  deriving DecidableEq, Repr

/-- A `duckv1.Destination`. -/
structure Destination where
  Ref : Option KReference := none
  URI : Option String := none
  deriving DecidableEq, Repr

/-- A `duckv1alpha1.PubSubSpec`: the sink of the embedded source spec, the
secret and the project. -/
structure PubSubSpec where
  Sink : Destination := {}
  Secret : Option SecretKeySelector := none
  Project : String := ""
  deriving DecidableEq, Repr

/-- What `kmeta.NewControllerRef` reads of an owner: the API version and kind
of its group-version-kind, its name and its UID. -/
structure Owner where
  APIVersion : String := ""
  Kind : String := ""
  Name : String := ""
  UID : String := ""
  deriving DecidableEq, Repr

/-- The argument record `TopicArgs`, as the tests fill it. -/
structure TopicArgs where
  Namespace : String := ""
  Name : String := ""
  Spec : PubSubSpec := {}
  Owner : Owner := {}
  Topic : String := ""
  Labels : List (String × String) := []
  deriving DecidableEq, Repr

/-- The `metav1.ObjectMeta` of a Topic. -/
structure ObjectMeta where
  Name : String := ""
  Namespace : String := ""
  UID : String := ""
  Generation : Int := 0
  Labels : List (String × String) := []
  Annotations : List (String × String) := []
  OwnerReferences : List OwnerReference := []
  deriving DecidableEq, Repr

/-- The `pubsubv1alpha1.TopicSpec`, with its secret. -/
structure TopicSpec where
  Secret : Option SecretKeySelector := none
  Project : String := ""
  Topic : String := ""
  PropagationPolicy : String := ""
  deriving DecidableEq, Repr

/-- A `pubsubv1alpha1.Topic` as an object to create. -/
structure Topic where
  ObjectMeta : ObjectMeta := {}
  Spec : TopicSpec := {}
  Status : TopicStatus := {}
  deriving DecidableEq, Repr

/-- The library function `kmeta.NewControllerRef`: the controller reference to
an owner. -/
def NewControllerRef (owner : Owner) : OwnerReference :=
  { APIVersion := owner.APIVersion, Kind := owner.Kind, Name := owner.Name, UID := owner.UID,
    Controller := some true, BlockOwnerDeletion := some true }

/-- Modelled from the spec: `resources.MakeTopic`, whose source file is absent
(only `topic_test.go` is there).  The spec's data model lists what a Topic
declaration carries (target project, topic name, propagation policy, owner
linkage, optional credential reference); the value of each field is the one
the two tests of `topic_test.go` expect. -/
def MakeTopic (args : TopicArgs) : Topic :=
  { ObjectMeta :=
      { Name := args.Name,
        Namespace := args.Namespace,
        Labels := args.Labels,
        OwnerReferences := [NewControllerRef args.Owner] },
    Spec :=
      { Secret := args.Spec.Secret,
        Project := args.Spec.Project,
        Topic := args.Topic,
        PropagationPolicy := TopicPolicyCreateDelete } }

/-- The arguments built by `TestMakeTopicWithCloudStorageSource`. -/
def storageTestArgs : TopicArgs :=
  { Namespace := "storage-namespace",
    Name := "storage-name",
    Spec :=
      { Project := "project-123",
        Secret := some { Name := "eventing-secret-name", Key := "eventing-secret-key" },
        Sink := { Ref := some { APIVersion := "v1", Kind := "Kitchen", Name := "sink" } } },
    Owner := { APIVersion := "events.cloud.google.com/v1alpha1", Kind := "CloudStorageSource",
               Name := "storage-name", UID := "storage-uid" },
    Topic := "topic-abc",
    Labels := [("receive-adapter", "storage.events.cloud.google.com"),
               ("source", "storage-name")] }

/-- The Topic that `TestMakeTopicWithCloudStorageSource` wants. -/
def storageTestWant : Topic :=
  { ObjectMeta :=
      { Namespace := "storage-namespace",
        Name := "storage-name",
        Labels := [("receive-adapter", "storage.events.cloud.google.com"),
                   ("source", "storage-name")],
        OwnerReferences :=
          [{ APIVersion := "events.cloud.google.com/v1alpha1", Kind := "CloudStorageSource",
             Name := "storage-name", UID := "storage-uid",
             Controller := some true, BlockOwnerDeletion := some true }] },
    Spec :=
      { Secret := some { Name := "eventing-secret-name", Key := "eventing-secret-key" },
        Project := "project-123",
        Topic := "topic-abc",
        PropagationPolicy := "CreateDelete" } }

/-- The arguments built by `TestMakeTopicWithCloudSchedulerSource`. -/
def schedulerTestArgs : TopicArgs :=
  { Namespace := "scheduler-namespace",
    Name := "scheduler-name",
    Spec :=
      { Project := "project-123",
        Secret := some { Name := "eventing-secret-name", Key := "eventing-secret-key" },
        Sink := { Ref := some { APIVersion := "v1", Kind := "Kitchen", Name := "sink" } } },
    Owner := { APIVersion := "events.cloud.google.com/v1alpha1", Kind := "CloudSchedulerSource",
               Name := "scheduler-name", UID := "scheduler-uid" },
    Topic := "topic-abc",
    Labels := [("receive-adapter", "scheduler.events.cloud.google.com"),
               ("source", "scheduler-name")] }

/-- The Topic that `TestMakeTopicWithCloudSchedulerSource` wants. -/
def schedulerTestWant : Topic :=
  { ObjectMeta :=
      { Namespace := "scheduler-namespace",
        Name := "scheduler-name",
        Labels := [("receive-adapter", "scheduler.events.cloud.google.com"),
                   ("source", "scheduler-name")],
        OwnerReferences :=
          [{ APIVersion := "events.cloud.google.com/v1alpha1", Kind := "CloudSchedulerSource",
             Name := "scheduler-name", UID := "scheduler-uid",
             Controller := some true, BlockOwnerDeletion := some true }] },
    Spec :=
      { Secret := some { Name := "eventing-secret-name", Key := "eventing-secret-key" },
        Project := "project-123",
        Topic := "topic-abc",
        PropagationPolicy := "CreateDelete" } }

end Resources

/-! # Theorems -/

/-! ## Facts about the condition set -/

namespace Conditions

theorem find_replace_same (c : Condition) (cs : List Condition)
    (h : cs.any (fun d => d.ctype = c.ctype) = true) :
    (cs.map (fun d => if d.ctype = c.ctype then c else d)).find?
      (fun d => d.ctype = c.ctype) = some c := by
  induction cs with
  | nil => simp at h
  | cons d ds ih =>
    by_cases hd : d.ctype = c.ctype
    · simp [List.find?, hd]
    · have h2 : ds.any (fun d => d.ctype = c.ctype) = true := by
        simpa [List.any_cons, hd] using h
      simp [List.find?, hd, ih h2]

theorem find_replace_other (c : Condition) (t : String) (ht : t ≠ c.ctype)
    (cs : List Condition) :
    (cs.map (fun d => if d.ctype = c.ctype then c else d)).find? (fun d => d.ctype = t) =
      cs.find? (fun d => d.ctype = t) := by
  induction cs with
  | nil => rfl
  | cons d ds ih =>
    rw [List.map_cons, List.find?_cons, List.find?_cons, ih]
    by_cases hd : d.ctype = c.ctype
    · have hct : ¬ c.ctype = t := fun e => ht e.symm
      have hdt : ¬ d.ctype = t := fun e => ht (e.symm.trans hd)
      rw [if_pos hd]
      simp [hct, hdt]
    · rw [if_neg hd]

theorem find_none_of_not_any (t : String) (cs : List Condition)
    (h : ¬ cs.any (fun d => d.ctype = t) = true) :
    cs.find? (fun d => d.ctype = t) = none := by
  induction cs with
  | nil => rfl
  | cons d ds ih =>
    simp only [List.any_cons, Bool.or_eq_true, not_or] at h
    have hd : ¬ d.ctype = t := by simpa using h.1
    simp [List.find?, hd, ih h.2]

/-- Reading back the type just written gives the written condition. -/
theorem GetCondition_SetCondition_same (cs : List Condition) (c : Condition) :
    GetCondition (SetCondition cs c) c.ctype = some c := by
  unfold GetCondition SetCondition
  by_cases h : cs.any (fun d => d.ctype = c.ctype) = true
  · rw [if_pos h]; exact find_replace_same c cs h
  · rw [if_neg h, List.find?_append, find_none_of_not_any c.ctype cs h]
    simp [List.find?]

/-- Writing one type leaves the condition of every other type as it was. -/
theorem GetCondition_SetCondition_other (cs : List Condition) (c : Condition) (t : String)
    (ht : t ≠ c.ctype) :
    GetCondition (SetCondition cs c) t = GetCondition cs t := by
  unfold GetCondition SetCondition
  by_cases h : cs.any (fun d => d.ctype = c.ctype) = true
  · rw [if_pos h]; exact find_replace_other c t ht cs
  · have hct : ¬ c.ctype = t := fun e => ht e.symm
    rw [if_neg h, List.find?_append]
    simp [List.find?, hct]

theorem IsTrue_MarkTrue (cs : List Condition) (t : String) :
    IsTrue (MarkTrue cs t) t = true := by
  have h := GetCondition_SetCondition_same cs { ctype := t, status := .ConditionTrue }
  simp only [IsTrue, MarkTrue] at *
  rw [h]; simp

theorem IsFalse_MarkFalse (cs : List Condition) (t reason message : String) :
    IsFalse (MarkFalse cs t reason message) t = true := by
  have h := GetCondition_SetCondition_same cs
    { ctype := t, status := .ConditionFalse, reason := reason, message := message }
  simp only [IsFalse, MarkFalse] at *
  rw [h]; simp

theorem GetCondition_MarkFalse (cs : List Condition) (t reason message : String) :
    GetCondition (MarkFalse cs t reason message) t =
      some { ctype := t, status := .ConditionFalse, reason := reason, message := message } :=
  GetCondition_SetCondition_same cs
    { ctype := t, status := .ConditionFalse, reason := reason, message := message }

theorem GetCondition_MarkTrue_other (cs : List Condition) (t u : String) (h : u ≠ t) :
    GetCondition (MarkTrue cs t) u = GetCondition cs u :=
  GetCondition_SetCondition_other cs _ u h

theorem GetCondition_MarkFalse_other (cs : List Condition) (t reason message u : String)
    (h : u ≠ t) :
    GetCondition (MarkFalse cs t reason message) u = GetCondition cs u :=
  GetCondition_SetCondition_other cs _ u h

theorem GetCondition_MarkUnknown_other (cs : List Condition) (t reason message u : String)
    (h : u ≠ t) :
    GetCondition (MarkUnknown cs t reason message) u = GetCondition cs u :=
  GetCondition_SetCondition_other cs _ u h

end Conditions

namespace Conditions

theorem map_eq_self {α : Type} (f : α → α) (l : List α) :
    l.map f = l ↔ ∀ x ∈ l, f x = x := by
  induction l with
  | nil => simp
  | cons a as ih => simp [List.map_cons, ih]

theorem mem_SetCondition (cs : List Condition) (c x : Condition) (h : x ∈ SetCondition cs c) :
    x = c ∨ (x ∈ cs ∧ x.ctype ≠ c.ctype) := by
  unfold SetCondition at h
  by_cases hany : cs.any (fun d => d.ctype = c.ctype) = true
  · rw [if_pos hany, List.mem_map] at h
    obtain ⟨y, hy, hxy⟩ := h
    by_cases hyc : y.ctype = c.ctype
    · rw [if_pos hyc] at hxy; exact Or.inl hxy.symm
    · rw [if_neg hyc] at hxy; subst hxy; exact Or.inr ⟨hy, hyc⟩
  · rw [if_neg hany, List.mem_append] at h
    rcases h with h | h
    · refine Or.inr ⟨h, fun e => hany ?_⟩
      rw [List.any_eq_true]
      exact ⟨x, h, by simpa using e⟩
    · simp at h; exact Or.inl h

theorem mem_SetCondition_of_ne (cs : List Condition) (c x : Condition) (hx : x ∈ cs)
    (hne : x.ctype ≠ c.ctype) : x ∈ SetCondition cs c := by
  unfold SetCondition
  by_cases hany : cs.any (fun d => d.ctype = c.ctype) = true
  · rw [if_pos hany, List.mem_map]
    exact ⟨x, hx, by rw [if_neg hne]⟩
  · rw [if_neg hany, List.mem_append]; exact Or.inl hx

theorem mem_SetCondition_self (cs : List Condition) (c : Condition) : c ∈ SetCondition cs c := by
  have h := GetCondition_SetCondition_same cs c
  unfold GetCondition at h
  exact List.mem_of_find?_eq_some h

/-- Writing a condition changes nothing exactly when its type is present and
every condition of that type already is the written one. -/
theorem SetCondition_eq_self_iff (cs : List Condition) (c : Condition) :
    SetCondition cs c = cs ↔
      (∃ x ∈ cs, x.ctype = c.ctype) ∧ ∀ x ∈ cs, x.ctype = c.ctype → x = c := by
  unfold SetCondition
  by_cases hany : cs.any (fun d => d.ctype = c.ctype) = true
  · rw [if_pos hany, map_eq_self]
    have hex : ∃ x ∈ cs, x.ctype = c.ctype := by
      rw [List.any_eq_true] at hany
      obtain ⟨x, hx, hxc⟩ := hany
      exact ⟨x, hx, by simpa using hxc⟩
    constructor
    · intro h
      refine ⟨hex, fun x hx hxc => ?_⟩
      have := h x hx
      rw [if_pos hxc] at this
      exact this.symm
    · intro h x hx
      by_cases hxc : x.ctype = c.ctype
      · rw [if_pos hxc]; exact (h.2 x hx hxc).symm
      · rw [if_neg hxc]
  · rw [if_neg hany]
    constructor
    · intro h
      have hl := congrArg List.length h
      simp at hl
    · intro h
      obtain ⟨x, hx, hxc⟩ := h.1
      exact absurd (List.any_eq_true.mpr ⟨x, hx, by simpa using hxc⟩) hany

/-- Writing the same condition twice is writing it once. -/
theorem SetCondition_idem (cs : List Condition) (c : Condition) :
    SetCondition (SetCondition cs c) c = SetCondition cs c := by
  rw [SetCondition_eq_self_iff]
  refine ⟨⟨c, mem_SetCondition_self cs c, rfl⟩, fun x hx hxc => ?_⟩
  rcases mem_SetCondition cs c x hx with h | h
  · exact h
  · exact absurd hxc h.2

/-- A write that changes nothing still changes nothing after a write of
another type. -/
theorem SetCondition_eq_self_of_other (cs : List Condition) (c d : Condition)
    (hne : d.ctype ≠ c.ctype) (h : SetCondition cs c = cs) :
    SetCondition (SetCondition cs d) c = SetCondition cs d := by
  rw [SetCondition_eq_self_iff] at h ⊢
  obtain ⟨⟨x, hx, hxc⟩, hall⟩ := h
  refine ⟨⟨x, mem_SetCondition_of_ne cs d x hx (fun e => hne (e.symm.trans hxc)), hxc⟩, ?_⟩
  intro y hy hyc
  rcases mem_SetCondition cs d y hy with e | e
  · subst e; exact absurd hyc hne
  · exact hall y e.1 hyc

/-- A type that is present stays present under any write. -/
theorem GetCondition_SetCondition_ne_none (cs : List Condition) (c : Condition) (t : String)
    (h : GetCondition cs t ≠ none) : GetCondition (SetCondition cs c) t ≠ none := by
  by_cases ht : t = c.ctype
  · subst ht; rw [GetCondition_SetCondition_same]; simp
  · rw [GetCondition_SetCondition_other cs c t ht]; exact h

theorem InitializeConditions_cons (d : String) (ds : List String) (cs : List Condition) :
    InitializeConditions (d :: ds) cs =
      InitializeConditions ds
        (match GetCondition cs d with
         | some _ => cs
         | none => SetCondition cs { ctype := d, status := .ConditionUnknown }) := rfl

/-- A type that is present stays present under initialisation. -/
theorem InitializeConditions_preserves (deps : List String) (cs : List Condition) (t : String)
    (h : GetCondition cs t ≠ none) : GetCondition (InitializeConditions deps cs) t ≠ none := by
  induction deps generalizing cs with
  | nil => exact h
  | cons d ds ih =>
    rw [InitializeConditions_cons]
    apply ih
    split
    · exact h
    · exact GetCondition_SetCondition_ne_none _ _ _ h

/-- After initialisation every type of the dependency set is present. -/
theorem InitializeConditions_present (deps : List String) (cs : List Condition) :
    ∀ t ∈ deps, GetCondition (InitializeConditions deps cs) t ≠ none := by
  induction deps generalizing cs with
  | nil => intro t ht; simp at ht
  | cons d ds ih =>
    intro t ht
    rw [InitializeConditions_cons]
    rcases List.mem_cons.mp ht with e | e
    · subst e
      apply InitializeConditions_preserves
      split
      · rename_i c hc; rw [hc]; simp
      · rw [GetCondition_SetCondition_same
          cs { ctype := t, status := .ConditionUnknown }]; simp
    · exact ih _ t e

/-- Initialisation changes nothing when every type of the dependency set is
present already. -/
theorem InitializeConditions_eq_self (deps : List String) (cs : List Condition)
    (h : ∀ t ∈ deps, GetCondition cs t ≠ none) : InitializeConditions deps cs = cs := by
  induction deps with
  | nil => rfl
  | cons d ds ih =>
    rw [InitializeConditions_cons]
    have hd := h d (List.mem_cons_self d ds)
    cases hg : GetCondition cs d with
    | none => exact absurd hg hd
    | some c =>
      simp only []
      exact ih (fun t ht => h t (List.mem_cons_of_mem d ht))

end Conditions

/-! ## Facts about the Topic reconciler -/

namespace TopicReconciler

variable {σ : Type}

/-- The topic step changes nothing of the Topic but the cached project ID. -/
theorem reconcileTopic_topic (r : Reconciler σ) (t : Topic) :
    ∃ pid, (reconcileTopic r t).topic = { t with Status := { t.Status with ProjectID := pid } } := by
  unfold reconcileTopic
  simp only []
  repeat' split
  all_goals first
    | exact ⟨t.Status.ProjectID, rfl⟩
    | exact ⟨_, rfl⟩

theorem reconcileTopic_frame (r : Reconciler σ) (t : Topic) :
    (reconcileTopic r t).topic.Status.TopicID = t.Status.TopicID ∧
    (reconcileTopic r t).topic.Status.Conditions = t.Status.Conditions ∧
    (reconcileTopic r t).topic.Status.ObservedGeneration = t.Status.ObservedGeneration ∧
    (reconcileTopic r t).topic.Status.Address = t.Status.Address ∧
    (reconcileTopic r t).topic.Spec = t.Spec ∧
    (reconcileTopic r t).topic.Generation = t.Generation ∧
    (reconcileTopic r t).topic.Name = t.Name ∧
    (reconcileTopic r t).topic.Namespace = t.Namespace ∧
    (reconcileTopic r t).topic.UID = t.UID := by
  obtain ⟨pid, h⟩ := reconcileTopic_topic r t
  rw [h]
  exact ⟨rfl, rfl, rfl, rfl, rfl, rfl, rfl, rfl, rfl⟩

/-- The publisher step makes calls on services only. -/
theorem reconcilePublisher_log (r : Reconciler σ) (t : Topic) :
    ∀ c ∈ (reconcilePublisher r t).log,
      (∃ ns name res, c = .ServicesGet ns name res) ∨ isServiceWrite c = true := by
  unfold reconcilePublisher
  simp only []
  repeat' split
  all_goals simp [isServiceWrite]

theorem atEntry_frame (topic : Topic) :
    (atEntry topic).Status.TopicID = topic.Status.TopicID ∧
    (atEntry topic).Status.ProjectID = topic.Status.ProjectID ∧
    (atEntry topic).Status.ObservedGeneration = topic.Generation ∧
    (atEntry topic).Spec = topic.Spec ∧
    (atEntry topic).Generation = topic.Generation ∧
    (atEntry topic).Name = topic.Name ∧
    (atEntry topic).Namespace = topic.Namespace ∧
    (atEntry topic).UID = topic.UID :=
  ⟨rfl, rfl, rfl, rfl, rfl, rfl, rfl, rfl⟩

/-- The run of `ReconcileKind` when the topic step fails. -/
theorem ReconcileKind_of_topic_error (r : Reconciler σ) (topic : Topic) (err : GoError)
    (h : (reconcileTopic r (atEntry topic)).ret = some err) :
    ReconcileKind r topic =
      { topic := { (reconcileTopic r (atEntry topic)).topic with
          Status := (reconcileTopic r (atEntry topic)).topic.Status.MarkNoTopic
            reconciledTopicFailedReason ("Failed to reconcile Pub/Sub topic: " ++ err.msg) },
        log := (reconcileTopic r (atEntry topic)).log,
        ret := .returned (NewEvent EventTypeWarning reconciledTopicFailedReason
          ("Failed to reconcile Pub/Sub topic: " ++ err.msg)) } := by
  unfold ReconcileKind
  simp only []
  unfold atEntry at h
  simp only [] at h
  rw [h]
  rfl

/-- The log of `ReconcileKind` when the topic step succeeds: the calls of the
topic step, then those of the publisher step. -/
theorem ReconcileKind_log_of_topic_ok (r : Reconciler σ) (topic : Topic)
    (h : (reconcileTopic r (atEntry topic)).ret = none) :
    (ReconcileKind r topic).log =
      (reconcileTopic r (atEntry topic)).log ++
        (reconcilePublisher r (afterTopicStep r topic)).log := by
  unfold ReconcileKind
  simp only []
  unfold afterTopicStep atEntry at *
  simp only [] at h ⊢
  rw [h]
  simp only []
  repeat' split
  all_goals rfl

/-- A call of the topic step found in the log of `ReconcileKind` was made by
the topic step. -/
theorem ReconcileKind_log_topic_call (r : Reconciler σ) (topic : Topic) (c : Call σ)
    (hc : c ∈ (ReconcileKind r topic).log)
    (hget : ∀ ns name res, c ≠ .ServicesGet ns name res) (hw : isServiceWrite c = false) :
    c ∈ (reconcileTopic r (atEntry topic)).log := by
  cases hret : (reconcileTopic r (atEntry topic)).ret with
  | some err =>
    rw [ReconcileKind_of_topic_error r topic err hret] at hc
    exact hc
  | none =>
    rw [ReconcileKind_log_of_topic_ok r topic hret, List.mem_append] at hc
    rcases hc with hc | hc
    · exact hc
    · rcases reconcilePublisher_log r _ c hc with ⟨ns, name, res, e⟩ | e
      · exact absurd e (hget ns name res)
      · rw [hw] at e; exact absurd e (by simp)

/-- The topic step under the policy that forbids creation, when the existence
check answers that the topic is absent. -/
theorem reconcileTopic_policy (r : Reconciler σ) (t : Topic)
    (hpol : t.Spec.PropagationPolicy = TopicPolicyNoCreateNoDelete)
    (hex : ∃ id, Call.Exists id (.ok false) ∈ (reconcileTopic r t).log) :
    (reconcileTopic r t).ret = some { msg := "Topic " ++ r.quote t.Spec.Topic ++
      " does not exist and the topic policy doesn't allow creation" } ∧
    (∀ c ∈ (reconcileTopic r t).log, isCreateTopic c = false) := by
  obtain ⟨id, hid⟩ := hex
  unfold reconcileTopic at hid ⊢
  simp only [] at hid ⊢
  repeat' split
  all_goals simp_all [isCreateTopic]

/-- What `ReconcileKind` does under policy NoCreateNoDelete when the existence
check that it makes, on whatever topic that is, answers absent: it returns a
Warning event with reason TopicReconcileFailed, the topic condition is False
afterwards, an empty status topic ID stays empty, and `CreateTopic` is not
called. -/
theorem ReconcileKind_policy_violation (r : Reconciler σ) (topic : Topic)
    (hpol : topic.Spec.PropagationPolicy = TopicPolicyNoCreateNoDelete)
    (hid : topic.Status.TopicID = "")
    (hex : ∃ id, Call.Exists id (.ok false) ∈ (ReconcileKind r topic).log) :
    (ReconcileKind r topic).ret =
        .returned { EventType := "Warning", Reason := "TopicReconcileFailed",
                    Message := "Failed to reconcile Pub/Sub topic: " ++ ("Topic " ++
                      r.quote topic.Spec.Topic ++
                      " does not exist and the topic policy doesn't allow creation") } ∧
    Conditions.IsFalse (ReconcileKind r topic).topic.Status.Conditions
        TopicConditionTopicExists = true ∧
    (ReconcileKind r topic).topic.Status.TopicID = "" ∧
    (∀ c ∈ (ReconcileKind r topic).log, isCreateTopic c = false) := by
  obtain ⟨id, hmem⟩ := hex
  have hmem2 := ReconcileKind_log_topic_call r topic _ hmem (by intro ns name res; simp)
    (by simp [isServiceWrite])
  have hpol2 : (atEntry topic).Spec.PropagationPolicy = TopicPolicyNoCreateNoDelete := hpol
  obtain ⟨hret, hno⟩ := reconcileTopic_policy r (atEntry topic) hpol2 ⟨id, hmem2⟩
  have hfr := reconcileTopic_frame r (atEntry topic)
  rw [ReconcileKind_of_topic_error r topic _ hret]
  refine ⟨rfl, ?_, ?_, hno⟩
  · exact Conditions.IsFalse_MarkFalse _ _ _ _
  · show (reconcileTopic r (atEntry topic)).topic.Status.TopicID = ""
    rw [hfr.1]; exact hid

/-- C1: the claim fails on the code.  The sample Topic that forbids creation
declares topic `orders-topic` in project `my-project`, with an empty status
topic ID; the backend knows no topic `orders-topic`, only one named
`my-project`.  The existence check of `reconcileTopic` is made on `my-project`
and answers present, so `ReconcileKind` returns the Normal event
TopicReconciled instead of the Warning TopicReconcileFailed, the topic
condition is True afterwards instead of False, and the status topic ID is
written instead of staying empty. -/
theorem C1_declared_topic_absent_yet_reconciled :
    sampleTopicNoCreate.Spec.PropagationPolicy = TopicPolicyNoCreateNoDelete ∧
    sampleTopicNoCreate.Status.TopicID = "" ∧
    sampleReconcilerProjectNamedTopic.Exists "my-project" sampleTopicNoCreate.Spec.Topic =
      .ok false ∧
    (reconcileTopic sampleReconcilerProjectNamedTopic (atEntry sampleTopicNoCreate)).log =
      [ .ProjectID "my-project" (.ok "my-project"),
        .createClientFn "my-project" none,
        .Topic "my-project",
        .Exists "my-project" (.ok true),
        .Close ] ∧
    (ReconcileKind sampleReconcilerProjectNamedTopic sampleTopicNoCreate).ret =
      .returned { EventType := "Normal", Reason := "TopicReconciled",
                  Message := "Topic reconciled: \"ns1/orders\"" } ∧
    Conditions.IsTrue
      (ReconcileKind sampleReconcilerProjectNamedTopic sampleTopicNoCreate).topic.Status.Conditions
      TopicConditionTopicExists = true ∧
    Conditions.IsFalse
      (ReconcileKind sampleReconcilerProjectNamedTopic sampleTopicNoCreate).topic.Status.Conditions
      TopicConditionTopicExists = false ∧
    (ReconcileKind sampleReconcilerProjectNamedTopic sampleTopicNoCreate).topic.Status.TopicID =
      "orders-topic" := by
  decide

/-- C2: the existence check of `reconcileTopic` is not made on the declared
topic name.  For the sample Topic, which declares topic `orders-topic` in
project `my-project`, the handle is built by `client.Topic("my-project")` and
`Exists` is called on it; no handle for `orders-topic` is built, although
`CreateTopic` is then called with `orders-topic`. -/
theorem C2_exists_checked_on_project_id :
    (reconcileTopic sampleReconciler sampleTopic).log =
      [ .ProjectID "my-project" (.ok "my-project"),
        .createClientFn "my-project" none,
        .Topic "my-project",
        .Exists "my-project" (.ok false),
        .CreateTopic "orders-topic" none,
        .Close ] ∧
    Call.Topic sampleTopic.Spec.Topic ∉ (reconcileTopic sampleReconciler sampleTopic).log := by
  decide

end TopicReconciler

namespace TopicReconciler

variable {σ : Type}

/-- The publisher step does not consult the Pub/Sub backend: it is the same
whatever `CreateTopic` answers. -/
theorem reconcilePublisher_withCreateTopic (r : Reconciler σ) (a : Option GoError) (t : Topic) :
    reconcilePublisher (withCreateTopic r a) t = reconcilePublisher r t := rfl

/-- The Topic left by the topic step does not depend on what `CreateTopic`
answers. -/
theorem reconcileTopic_topic_withCreateTopic (r : Reconciler σ) (a b : Option GoError)
    (t : Topic) :
    (reconcileTopic (withCreateTopic r a) t).topic =
      (reconcileTopic (withCreateTopic r b) t).topic := by
  unfold reconcileTopic withCreateTopic
  simp only []
  repeat' split
  all_goals simp_all

/-- The topic step when the existence check answers absent, the policy allows
creation and `CreateTopic` answers with a gRPC status of code AlreadyExists. -/
theorem reconcileTopic_already_exists (r : Reconciler σ) (e : GoError) (t : Topic)
    (hpol : t.Spec.PropagationPolicy ≠ TopicPolicyNoCreateNoDelete)
    (hcode : e.grpcCode = some codes_AlreadyExists)
    (hex : ∃ id, Call.Exists id (.ok false) ∈ (reconcileTopic (withCreateTopic r (some e)) t).log) :
    (reconcileTopic (withCreateTopic r (some e)) t).ret = none ∧
    (reconcileTopic (withCreateTopic r none) t).ret = none ∧
    Call.CreateTopic t.Spec.Topic (some e) ∈ (reconcileTopic (withCreateTopic r (some e)) t).log := by
  obtain ⟨id, hid⟩ := hex
  unfold reconcileTopic withCreateTopic at hid ⊢
  simp only [] at hid ⊢
  repeat' split
  all_goals simp_all

/-- Two reconcilers whose topic steps end alike and whose publisher steps agree
leave the same Topic and return the same outcome. -/
theorem ReconcileKind_congr (r1 r2 : Reconciler σ) (topic : Topic)
    (hret : (reconcileTopic r1 (atEntry topic)).ret = (reconcileTopic r2 (atEntry topic)).ret)
    (htop : (reconcileTopic r1 (atEntry topic)).topic = (reconcileTopic r2 (atEntry topic)).topic)
    (hpub : ∀ t, reconcilePublisher r1 t = reconcilePublisher r2 t) :
    (ReconcileKind r1 topic).topic = (ReconcileKind r2 topic).topic ∧
    (ReconcileKind r1 topic).ret = (ReconcileKind r2 topic).ret := by
  unfold atEntry at hret htop
  simp only [] at hret htop
  unfold ReconcileKind
  simp only [hret, htop, hpub]
  repeat' split
  all_goals simp_all

end TopicReconciler

namespace TopicReconciler

variable {σ : Type}

theorem topic_ne_publisher : TopicConditionTopicExists ≠ TopicConditionPublisherReady := by
  decide

theorem PublisherOnly_MarkPublisherNotDeployed (ts : TopicStatus) (reason message : String) :
    PublisherOnly ts (ts.MarkPublisherNotDeployed reason message) :=
  ⟨rfl, rfl, rfl, Conditions.GetCondition_MarkFalse_other _ _ _ _ _ topic_ne_publisher⟩

theorem PublisherOnly_PropagatePublisherStatus (ts : TopicStatus) (ss : ServiceStatus) :
    PublisherOnly ts (ts.PropagatePublisherStatus ss) := by
  unfold TopicStatus.PropagatePublisherStatus
  split
  · exact ⟨rfl, rfl, rfl, rfl⟩
  · split
    · exact ⟨rfl, rfl, rfl, Conditions.GetCondition_MarkTrue_other _ _ _ topic_ne_publisher⟩
    · exact ⟨rfl, rfl, rfl, Conditions.GetCondition_MarkFalse_other _ _ _ _ _ topic_ne_publisher⟩
    · exact ⟨rfl, rfl, rfl, Conditions.GetCondition_MarkUnknown_other _ _ _ _ _ topic_ne_publisher⟩

theorem PublisherOnly_SetAddress (a b : TopicStatus) (url : Option String)
    (h : PublisherOnly a b) : PublisherOnly a (b.SetAddress url) := h

/-- After a successful topic step, the Topic left by `ReconcileKind` is the one
handed to the publisher step, up to the publisher condition and the address. -/
theorem ReconcileKind_topic_of_topic_ok (r : Reconciler σ) (topic : Topic)
    (h : (reconcileTopic r (atEntry topic)).ret = none) :
    ∃ st, (ReconcileKind r topic).topic = { afterTopicStep r topic with Status := st } ∧
      PublisherOnly (afterTopicStep r topic).Status st := by
  unfold ReconcileKind
  simp only []
  unfold afterTopicStep atEntry at *
  simp only [] at h ⊢
  rw [h]
  simp only []
  repeat' split
  · exact ⟨_, rfl, PublisherOnly_MarkPublisherNotDeployed _ _ _⟩
  · exact ⟨_, rfl, PublisherOnly_PropagatePublisherStatus _ _⟩
  · exact ⟨_, rfl, PublisherOnly_SetAddress _ _ _ (PublisherOnly_PropagatePublisherStatus _ _)⟩
  · exact ⟨_, rfl, PublisherOnly_PropagatePublisherStatus _ _⟩

/-- The Topic handed to the publisher step has the topic condition True and
the declared topic name as its topic ID. -/
theorem afterTopicStep_status (r : Reconciler σ) (topic : Topic) :
    Conditions.IsTrue (afterTopicStep r topic).Status.Conditions TopicConditionTopicExists = true ∧
    (afterTopicStep r topic).Status.TopicID = topic.Spec.Topic ∧
    (afterTopicStep r topic).Status.ObservedGeneration = topic.Generation ∧
    (afterTopicStep r topic).Generation = topic.Generation ∧
    (afterTopicStep r topic).Spec = topic.Spec := by
  have hfr := reconcileTopic_frame r (atEntry topic)
  have hat := atEntry_frame topic
  refine ⟨Conditions.IsTrue_MarkTrue _ _, ?_, ?_, ?_, ?_⟩
  · show (reconcileTopic r (atEntry topic)).topic.Spec.Topic = _
    rw [hfr.2.2.2.2.1, hat.2.2.2.1]
  · show (reconcileTopic r (atEntry topic)).topic.Status.ObservedGeneration = _
    rw [hfr.2.2.1, hat.2.2.1]
  · show (reconcileTopic r (atEntry topic)).topic.Generation = _
    rw [hfr.2.2.2.2.2.1, hat.2.2.2.2.1]
  · show (reconcileTopic r (atEntry topic)).topic.Spec = _
    rw [hfr.2.2.2.2.1, hat.2.2.2.1]

/-- C4: `ReconcileKind` always stamps the observed generation with the
Generation of the object; whenever the topic step succeeds (`reconcileTopic`
returns nil), afterwards the topic condition is True and the status topic ID
equals the declared topic name, whatever the publisher step does; and when the
topic step fails, the status topic ID is left as it was on entry. -/
theorem C4_topic_step_success (r : Reconciler σ) (topic : Topic) :
    (ReconcileKind r topic).topic.Status.ObservedGeneration = topic.Generation ∧
    (ReconcileKind r topic).topic.Generation = topic.Generation ∧
    ((reconcileTopic r (atEntry topic)).ret = none →
      Conditions.IsTrue (ReconcileKind r topic).topic.Status.Conditions
        TopicConditionTopicExists = true ∧
      (ReconcileKind r topic).topic.Status.TopicID = topic.Spec.Topic) ∧
    (∀ err, (reconcileTopic r (atEntry topic)).ret = some err →
      (ReconcileKind r topic).topic.Status.TopicID = topic.Status.TopicID) := by
  have hfr := reconcileTopic_frame r (atEntry topic)
  have hat := atEntry_frame topic
  have haft := afterTopicStep_status r topic
  cases hret : (reconcileTopic r (atEntry topic)).ret with
  | some err =>
    rw [ReconcileKind_of_topic_error r topic err hret]
    refine ⟨?_, ?_, ?_, ?_⟩
    · show (reconcileTopic r (atEntry topic)).topic.Status.ObservedGeneration = _
      rw [hfr.2.2.1, hat.2.2.1]
    · show (reconcileTopic r (atEntry topic)).topic.Generation = _
      rw [hfr.2.2.2.2.2.1, hat.2.2.2.2.1]
    · intro h; exact absurd h (by simp)
    · intro _ _
      show (reconcileTopic r (atEntry topic)).topic.Status.TopicID = _
      rw [hfr.1, hat.1]
  | none =>
    obtain ⟨st, htopic, hpo⟩ := ReconcileKind_topic_of_topic_ok r topic hret
    rw [htopic]
    refine ⟨?_, haft.2.2.2.1, ?_, ?_⟩
    · show st.ObservedGeneration = _
      rw [hpo.2.2.1, haft.2.2.1]
    · intro _
      refine ⟨?_, ?_⟩
      · have h1 := haft.1
        unfold Conditions.IsTrue at h1 ⊢
        show (match Conditions.GetCondition st.Conditions TopicConditionTopicExists with
          | some c => decide (c.status = ConditionStatus.ConditionTrue)
          | none => false) = true
        rw [hpo.2.2.2]; exact h1
      · show st.TopicID = _
        rw [hpo.1, haft.2.1]
    · intro err h; exact absurd h (by simp)

/-- C5: `FinalizeKind` calls `Delete` only under policy CreateDelete, with a
non-empty status topic ID, on that topic, after an existence check that
answered present; under policy NoCreateNoDelete it returns nil and makes no
call at all (no client is created); under policy CreateDelete, when the
existence check answers absent without error, it returns nil and does not call
`Delete`. -/
theorem C5_finalize (r : Reconciler σ) (topic : Topic) :
    (∀ id err, Call.Delete id err ∈ (FinalizeKind r topic).log →
      topic.Spec.PropagationPolicy = TopicPolicyCreateDelete ∧
      topic.Status.TopicID ≠ "" ∧ id = topic.Status.TopicID ∧
      Call.Exists id (.ok true) ∈ (FinalizeKind r topic).log) ∧
    (topic.Spec.PropagationPolicy = TopicPolicyNoCreateNoDelete →
      (FinalizeKind r topic).ret = none ∧ (FinalizeKind r topic).log = []) ∧
    (topic.Spec.PropagationPolicy = TopicPolicyCreateDelete →
      (∃ id, Call.Exists id (.ok false) ∈ (FinalizeKind r topic).log) →
      (FinalizeKind r topic).ret = none ∧
      ∀ c ∈ (FinalizeKind r topic).log, isDelete c = false) := by
  refine ⟨?_, ?_, ?_⟩
  · intro id err h
    unfold FinalizeKind deleteTopic at h ⊢
    simp only [] at h ⊢
    repeat' split at h
    all_goals simp_all
  · intro hpol
    have hne : ¬ topic.Spec.PropagationPolicy = TopicPolicyCreateDelete := by
      rw [hpol]; decide
    unfold FinalizeKind
    simp [hne]
  · intro hpol ⟨id, h⟩
    unfold FinalizeKind deleteTopic at h ⊢
    simp only [] at h ⊢
    repeat' split at h
    all_goals simp_all [isDelete]

/-- C5 at the sample Topic once its topic ID is recorded: against a backend
that still knows the topic, `Delete` is called on it; against a backend that no
longer knows the topic, finalization returns nil without `Delete`; and under
the policy that forbids deletion it makes no call. -/
theorem C5_finalize_witness :
    Call.Delete "orders-topic" none ∈
      (FinalizeKind (withExists sampleReconciler (.ok true)) sampleTopicReconciled).log ∧
    Call.Exists "orders-topic" (.ok true) ∈
      (FinalizeKind (withExists sampleReconciler (.ok true)) sampleTopicReconciled).log ∧
    ((FinalizeKind sampleReconciler sampleTopicReconciled).ret = none ∧
     ∀ c ∈ (FinalizeKind sampleReconciler sampleTopicReconciled).log, isDelete c = false) ∧
    ((FinalizeKind sampleReconciler sampleTopicNoCreate).ret = none ∧
     (FinalizeKind sampleReconciler sampleTopicNoCreate).log = []) :=
  ⟨by decide,
   ((C5_finalize (withExists sampleReconciler (.ok true)) sampleTopicReconciled).1
      "orders-topic" none (by decide)).2.2.2,
   (C5_finalize sampleReconciler sampleTopicReconciled).2.2 (by decide)
      ⟨"orders-topic", by decide⟩,
   (C5_finalize sampleReconciler sampleTopicNoCreate).2.1 (by decide)⟩

end TopicReconciler

namespace TopicReconciler

variable {σ : Type}

/-- The topic step makes no call on services. -/
theorem reconcileTopic_log_no_service (r : Reconciler σ) (t : Topic) :
    ∀ c ∈ (reconcileTopic r t).log,
      (∀ ns name res, c ≠ .ServicesGet ns name res) ∧ isServiceWrite c = false := by
  unfold reconcileTopic
  simp only []
  repeat' split
  all_goals simp [isServiceWrite]

/-- The run of `ReconcileKind` when the topic step succeeds and the publisher
step fails. -/
theorem ReconcileKind_of_publisher_error (r : Reconciler σ) (topic : Topic) (err : GoError)
    (h : (reconcileTopic r (atEntry topic)).ret = none)
    (hp : (reconcilePublisher r (afterTopicStep r topic)).ret = .fail err) :
    ReconcileKind r topic =
      { topic := { afterTopicStep r topic with
          Status := (afterTopicStep r topic).Status.MarkPublisherNotDeployed
            reconciledPublisherFailedReason ("Failed to reconcile Publisher: " ++ err.msg) },
        log := (reconcileTopic r (atEntry topic)).log ++
          (reconcilePublisher r (afterTopicStep r topic)).log,
        ret := .returned (NewEvent EventTypeWarning reconciledPublisherFailedReason
          ("Failed to reconcile Publisher: " ++ err.msg)) } := by
  unfold ReconcileKind
  simp only []
  unfold afterTopicStep atEntry at *
  simp only [] at h hp ⊢
  rw [h]
  simp only []
  rw [hp]

/-- The publisher step when the lister finds a service that the Topic does not
control. -/
theorem reconcilePublisher_not_owned (r : Reconciler σ) (t : Topic) (existing : Service σ)
    (hget : r.ServicesGet t.Namespace (r.GeneratePublisherName t) = .ok existing)
    (hown : IsControlledBy existing t = false) :
    (reconcilePublisher r t).ret =
      .fail { msg := "Topic " ++ r.quote t.Name ++ " does not own publisher service: " ++
        r.quote (r.GeneratePublisherName t) } ∧
    (reconcilePublisher r t).log =
      [.ServicesGet t.Namespace (r.GeneratePublisherName t) (.ok existing)] := by
  unfold reconcilePublisher
  simp only [hget, hown]
  exact ⟨rfl, rfl⟩

/-- The one lookup of the publisher step. -/
theorem reconcilePublisher_get (r : Reconciler σ) (t : Topic) (ns name : String)
    (res : GoResult (Service σ)) (h : Call.ServicesGet ns name res ∈ (reconcilePublisher r t).log) :
    ns = t.Namespace ∧ name = r.GeneratePublisherName t ∧
    res = r.ServicesGet t.Namespace (r.GeneratePublisherName t) := by
  unfold reconcilePublisher at h
  simp only [] at h
  repeat' split at h
  all_goals simp at h
  all_goals simp [h]

theorem IsControlledBy_UID (existing : Service σ) (t t2 : Topic) (h : t2.UID = t.UID) :
    IsControlledBy existing t2 = IsControlledBy existing t := by
  unfold IsControlledBy
  rw [h]

theorem afterTopicStep_meta (r : Reconciler σ) (topic : Topic) :
    (afterTopicStep r topic).UID = topic.UID ∧
    (afterTopicStep r topic).Name = topic.Name ∧
    (afterTopicStep r topic).Namespace = topic.Namespace := by
  have hfr := reconcileTopic_frame r (atEntry topic)
  refine ⟨?_, ?_, ?_⟩
  · show (reconcileTopic r (atEntry topic)).topic.UID = _
    rw [hfr.2.2.2.2.2.2.2.2]; rfl
  · show (reconcileTopic r (atEntry topic)).topic.Name = _
    rw [hfr.2.2.2.2.2.2.1]; rfl
  · show (reconcileTopic r (atEntry topic)).topic.Namespace = _
    rw [hfr.2.2.2.2.2.2.2.1]; rfl

/-- C6: when the lookup made by `ReconcileKind` for the publisher service (in
the namespace of the Topic, under the generated publisher name) finds a service
that this Topic does not control, the topic step has succeeded,
`reconcilePublisher` returns an error, neither `Create` nor `Update` is called
on any service, `ReconcileKind` returns a Warning event with reason
PublisherReconcileFailed, and the publisher condition is False with that
reason. -/
theorem C6_ownership_conflict (r : Reconciler σ) (topic : Topic) (existing : Service σ)
    (ns name : String)
    (hget : Call.ServicesGet ns name (.ok existing) ∈ (ReconcileKind r topic).log)
    (hown : IsControlledBy existing topic = false) :
    (reconcileTopic r (atEntry topic)).ret = none ∧
    ns = topic.Namespace ∧ name = r.GeneratePublisherName (afterTopicStep r topic) ∧
    (reconcilePublisher r (afterTopicStep r topic)).ret =
      .fail { msg := "Topic " ++ r.quote topic.Name ++ " does not own publisher service: " ++
        r.quote name } ∧
    (∀ c ∈ (ReconcileKind r topic).log, isServiceWrite c = false) ∧
    (ReconcileKind r topic).ret =
      .returned { EventType := "Warning", Reason := "PublisherReconcileFailed",
                  Message := "Failed to reconcile Publisher: " ++ ("Topic " ++
                    r.quote topic.Name ++ " does not own publisher service: " ++
                    r.quote name) } ∧
    Conditions.GetCondition (ReconcileKind r topic).topic.Status.Conditions
        TopicConditionPublisherReady =
      some { ctype := TopicConditionPublisherReady, status := .ConditionFalse,
             reason := "PublisherReconcileFailed",
             message := "Failed to reconcile Publisher: " ++ ("Topic " ++
               r.quote topic.Name ++ " does not own publisher service: " ++ r.quote name) } := by
  have hmeta := afterTopicStep_meta r topic
  cases hret : (reconcileTopic r (atEntry topic)).ret with
  | some err =>
    rw [ReconcileKind_of_topic_error r topic err hret] at hget
    exact absurd rfl ((reconcileTopic_log_no_service r _ _ hget).1 ns name (.ok existing))
  | none =>
    rw [ReconcileKind_log_of_topic_ok r topic hret, List.mem_append] at hget
    have hget2 : Call.ServicesGet ns name (.ok existing) ∈
        (reconcilePublisher r (afterTopicStep r topic)).log := by
      rcases hget with h | h
      · exact absurd rfl ((reconcileTopic_log_no_service r _ _ h).1 ns name (.ok existing))
      · exact h
    obtain ⟨hns, hname, hres⟩ := reconcilePublisher_get r _ ns name _ hget2
    have hown2 : IsControlledBy existing (afterTopicStep r topic) = false := by
      rw [IsControlledBy_UID existing topic _ hmeta.1]; exact hown
    obtain ⟨hpret, hplog⟩ := reconcilePublisher_not_owned r _ existing hres.symm hown2
    rw [hmeta.2.1, ← hname] at hpret
    rw [ReconcileKind_of_publisher_error r topic _ hret hpret]
    refine ⟨rfl, by rw [hns, hmeta.2.2], hname, hpret, ?_, rfl, ?_⟩
    · intro c hc
      rw [List.mem_append] at hc
      rcases hc with hc | hc
      · exact (reconcileTopic_log_no_service r _ c hc).2
      · rw [hplog] at hc
        simp at hc
        subst hc
        rfl
    · exact Conditions.GetCondition_MarkFalse _ _ _ _

/-- C6 at the sample Topic, when the lister finds a publisher service that some
other object controls. -/
theorem C6_ownership_conflict_witness :
    Call.ServicesGet "ns1" "cre-orders-publish" (.ok sampleForeignService) ∈
      (ReconcileKind (withService sampleReconciler sampleForeignService) sampleTopic).log ∧
    IsControlledBy sampleForeignService sampleTopic = false ∧
    (∀ c ∈ (ReconcileKind (withService sampleReconciler sampleForeignService) sampleTopic).log,
      isServiceWrite c = false) ∧
    (ReconcileKind (withService sampleReconciler sampleForeignService) sampleTopic).ret =
      .returned { EventType := "Warning", Reason := "PublisherReconcileFailed",
                  Message := "Failed to reconcile Publisher: " ++ ("Topic " ++
                    "\"orders\"" ++ " does not own publisher service: " ++
                    "\"cre-orders-publish\"") } :=
  have h := C6_ownership_conflict (withService sampleReconciler sampleForeignService) sampleTopic
    sampleForeignService "ns1" "cre-orders-publish" (by decide) (by decide)
  ⟨by decide, by decide, h.2.2.2.2.1, h.2.2.2.2.2.1⟩

/-- C7: `reconcilePublisher` makes at most one write.  When the lister answers
that no service has the publisher name, the only write is one `Create` of the
desired service, whose answer is returned; when an owned service exists whose
spec is not semantically equal to the desired spec, the only write is one
`Update` of the existing object with its spec replaced by the desired spec,
whose answer is returned; when an owned service exists whose spec is
semantically equal to the desired one, there is no write and the existing
service is returned unchanged. -/
theorem C7_publisher_converges (r : Reconciler σ) (t : Topic) :
    (∀ err, r.ServicesGet t.Namespace (r.GeneratePublisherName t) = .fail err →
      err.notFound = true →
      (reconcilePublisher r t).log.filter isServiceWrite =
        [.ServicesCreate t.Namespace (desiredPublisher r t)
          (r.ServicesCreate t.Namespace (desiredPublisher r t))] ∧
      (reconcilePublisher r t).ret = r.ServicesCreate t.Namespace (desiredPublisher r t)) ∧
    (∀ existing, r.ServicesGet t.Namespace (r.GeneratePublisherName t) = .ok existing →
      IsControlledBy existing t = true →
      r.SemanticDeepEqual existing.Spec (desiredPublisher r t).Spec = false →
      (reconcilePublisher r t).log.filter isServiceWrite =
        [.ServicesUpdate t.Namespace { existing with Spec := (desiredPublisher r t).Spec }
          (r.ServicesUpdate t.Namespace { existing with Spec := (desiredPublisher r t).Spec })] ∧
      (reconcilePublisher r t).ret =
        r.ServicesUpdate t.Namespace { existing with Spec := (desiredPublisher r t).Spec }) ∧
    (∀ existing, r.ServicesGet t.Namespace (r.GeneratePublisherName t) = .ok existing →
      IsControlledBy existing t = true →
      r.SemanticDeepEqual existing.Spec (desiredPublisher r t).Spec = true →
      (reconcilePublisher r t).log.filter isServiceWrite = [] ∧
      (reconcilePublisher r t).ret = .ok existing) := by
  refine ⟨?_, ?_, ?_⟩
  · intro err hget hnf
    unfold reconcilePublisher desiredPublisher
    simp [hget, hnf, isServiceWrite]
  · intro existing hget hown hneq
    unfold desiredPublisher at hneq
    unfold reconcilePublisher desiredPublisher
    simp [hget, hown, hneq, isServiceWrite]
  · intro existing hget hown heq
    unfold desiredPublisher at heq
    unfold reconcilePublisher
    simp [hget, hown, heq, isServiceWrite]

/-- C7 at the sample Topic: no service yet (one `Create`), an owned service
with an outdated spec (one `Update`), and an owned service that already has
the desired spec (no write). -/
theorem C7_publisher_converges_witness :
    (reconcilePublisher sampleReconciler sampleTopic).log.filter isServiceWrite =
      [.ServicesCreate "ns1" (desiredPublisher sampleReconciler sampleTopic)
        (.ok (desiredPublisher sampleReconciler sampleTopic))] ∧
    (reconcilePublisher (withService sampleReconciler sampleStaleService) sampleTopic).log.filter
        isServiceWrite =
      [.ServicesUpdate "ns1"
        { sampleStaleService with Spec := "publisher-image my-project/orders-topic " }
        (.ok { sampleStaleService with Spec := "publisher-image my-project/orders-topic " })] ∧
    (reconcilePublisher
        (withService sampleReconciler (desiredPublisher sampleReconciler sampleTopic))
        sampleTopic).ret = .ok (desiredPublisher sampleReconciler sampleTopic) :=
  ⟨((C7_publisher_converges sampleReconciler sampleTopic).1 sampleNotFound (by decide)
      (by decide)).1,
   ((C7_publisher_converges (withService sampleReconciler sampleStaleService) sampleTopic).2.1
      sampleStaleService (by decide) (by decide) (by decide)).1,
   ((C7_publisher_converges
      (withService sampleReconciler (desiredPublisher sampleReconciler sampleTopic))
      sampleTopic).2.2 (desiredPublisher sampleReconciler sampleTopic) (by decide) (by decide)
      (by decide)).2⟩

end TopicReconciler

namespace TopicReconciler

variable {σ : Type}

/-- After a successful topic step, `ReconcileKind` ends as the statements after
the publisher step leave it. -/
theorem ReconcileKind_of_topic_ok (r : Reconciler σ) (topic : Topic)
    (h : (reconcileTopic r (atEntry topic)).ret = none) :
    (ReconcileKind r topic).topic =
      (afterPublisherStep (afterTopicStep r topic)
        (reconcilePublisher r (afterTopicStep r topic)).ret).1 ∧
    (ReconcileKind r topic).ret =
      (afterPublisherStep (afterTopicStep r topic)
        (reconcilePublisher r (afterTopicStep r topic)).ret).2 := by
  unfold ReconcileKind afterPublisherStep
  simp only []
  unfold afterTopicStep atEntry at *
  simp only [] at h ⊢
  rw [h]
  simp only []
  repeat' split
  all_goals simp_all

theorem publisherMark_ctype (x : GoResult (Service σ)) (d : Condition)
    (h : publisherMark x = some d) : d.ctype = TopicConditionPublisherReady := by
  unfold publisherMark at h
  repeat' split at h
  all_goals simp at h
  all_goals subst h
  all_goals rfl

/-- The Topic left by the statements after the publisher step: the conditions
after the optional write of the publisher condition, and the address when it is
written. -/
theorem afterPublisherStep_normal (t : Topic) (x : GoResult (Service σ)) :
    (afterPublisherStep t x).1 =
      { t with
        Status :=
          { t.Status with
            Conditions := applyMark t.Status.Conditions (publisherMark x),
            Address := (addressWritten x).getD t.Status.Address } } := by
  unfold afterPublisherStep publisherMark addressWritten applyMark
    TopicStatus.PropagatePublisherStatus TopicStatus.MarkPublisherNotDeployed TopicStatus.SetAddress
    Conditions.MarkTrue Conditions.MarkFalse Conditions.MarkUnknown
  cases x with
  | fail err => rfl
  | ok svc =>
    simp only []
    cases hc : svc.Status.GetCondition ConditionReady with
    | none =>
      by_cases hr : svc.Status.IsReady = true
      · cases ha : svc.Status.Address <;> simp [hr]
      · simp [hr]
    | some sc =>
      by_cases hr : svc.Status.IsReady = true
      · cases ha : svc.Status.Address <;> cases hs : sc.status <;> simp [hr, hs]
      · cases hs : sc.status <;> simp [hr, hs]

/-- The outcome of the statements after the publisher step depends on the Topic
through its name and namespace only. -/
theorem afterPublisherStep_outcome (t t2 : Topic) (x : GoResult (Service σ))
    (hn : t2.Name = t.Name) (hns : t2.Namespace = t.Namespace) :
    (afterPublisherStep t2 x).2 = (afterPublisherStep t x).2 := by
  unfold afterPublisherStep
  cases x with
  | fail err => rfl
  | ok svc =>
    simp only [hn, hns]
    repeat' split
    all_goals rfl

theorem applyMark_idem (cs : List Condition) (m : Option Condition) :
    applyMark (applyMark cs m) m = applyMark cs m := by
  cases m with
  | none => rfl
  | some d => exact Conditions.SetCondition_idem cs d

theorem applyMark_present (cs : List Condition) (m : Option Condition) (ty : String)
    (h : Conditions.GetCondition cs ty ≠ none) :
    Conditions.GetCondition (applyMark cs m) ty ≠ none := by
  cases m with
  | none => exact h
  | some d => exact Conditions.GetCondition_SetCondition_ne_none cs d ty h

theorem applyMark_fixed (cs : List Condition) (x : GoResult (Service σ)) (c : Condition)
    (hc : c.ctype = TopicConditionTopicExists) (h : Conditions.SetCondition cs c = cs) :
    Conditions.SetCondition (applyMark cs (publisherMark x)) c = applyMark cs (publisherMark x) := by
  cases hm : publisherMark x with
  | none => exact h
  | some d =>
    have hd := publisherMark_ctype x d hm
    refine Conditions.SetCondition_eq_self_of_other cs c d ?_ h
    rw [hd, hc]
    exact fun e => topic_ne_publisher e.symm

/-- What the topic step returns, and the project ID it leaves, depend on the
Topic through its spec and its cached project ID only. -/
theorem reconcileTopic_congr (r : Reconciler σ) (t t2 : Topic) (hspec : t2.Spec = t.Spec)
    (hpid : t2.Status.ProjectID = t.Status.ProjectID) :
    (reconcileTopic r t2).ret = (reconcileTopic r t).ret ∧
    (reconcileTopic r t2).topic.Status.ProjectID = (reconcileTopic r t).topic.Status.ProjectID := by
  obtain ⟨n2, ns2, u2, g2, sp2, ⟨p2, ti2, c2, o2, a2⟩⟩ := t2
  obtain ⟨n, ns, u, g, sp, ⟨p, ti, c, o, a⟩⟩ := t
  simp only [] at hspec hpid
  subst hspec hpid
  unfold reconcileTopic
  simp only []
  repeat' split
  all_goals simp_all

/-- With a project ID cached, the topic step leaves the Topic as it is. -/
theorem reconcileTopic_cached (r : Reconciler σ) (t : Topic) (h : t.Status.ProjectID ≠ "") :
    (reconcileTopic r t).topic = t := by
  unfold reconcileTopic
  simp only [h, if_false]
  repeat' split
  all_goals rfl

/-- The topic step leaves the Topic as it is when the project ID it ends with
is the one the Topic came with. -/
theorem reconcileTopic_topic_eq (r : Reconciler σ) (t : Topic)
    (h : (reconcileTopic r t).topic.Status.ProjectID = t.Status.ProjectID) :
    (reconcileTopic r t).topic = t := by
  obtain ⟨pid, hp⟩ := reconcileTopic_topic r t
  rw [hp] at h ⊢
  simp only [] at h
  subst h
  rfl

/-- Without a cached project ID, once the project resolves, the topic step goes
on as it would with that project ID cached. -/
theorem reconcileTopic_resolved (r : Reconciler σ) (t : Topic) (p : String)
    (h : t.Status.ProjectID = "") (hp : r.ProjectID t.Spec.Project = .ok p) (hne : p ≠ "") :
    (reconcileTopic r t).ret =
      (reconcileTopic r { t with Status := { t.Status with ProjectID := p } }).ret ∧
    (reconcileTopic r t).topic.Status.ProjectID = p := by
  unfold reconcileTopic
  simp only [h, hp, hne, if_true, if_false]
  refine ⟨?_, ?_⟩
  · repeat' split
    all_goals simp_all
  · repeat' split
    all_goals simp_all

/-- A topic step that succeeded succeeds again on the Topic it left, and
leaves it as it is. -/
theorem reconcileTopic_twice (r : Reconciler σ) (t : Topic)
    (hok : (reconcileTopic r t).ret = none) :
    (reconcileTopic r (reconcileTopic r t).topic).ret = none ∧
    (reconcileTopic r (reconcileTopic r t).topic).topic.Status.ProjectID =
      (reconcileTopic r t).topic.Status.ProjectID := by
  by_cases h : t.Status.ProjectID = ""
  · cases hp : r.ProjectID t.Spec.Project with
    | fail err =>
      exfalso
      unfold reconcileTopic at hok
      simp [h, hp] at hok
    | ok p =>
      by_cases hne : p = ""
      · subst hne
        have e : (reconcileTopic r t).topic = t := by
          apply reconcileTopic_topic_eq
          rw [h]
          unfold reconcileTopic
          simp only [h, hp, if_true]
          repeat' split
          all_goals simp_all
        rw [e]
        exact ⟨hok, by rw [e]⟩
      · obtain ⟨hret, hpid⟩ := reconcileTopic_resolved r t p h hp hne
        obtain ⟨q, hq⟩ := reconcileTopic_topic r t
        have hqp : q = p := by
          have := hpid
          rw [hq] at this
          exact this
        subst hqp
        have hc : (reconcileTopic r { t with Status := { t.Status with ProjectID := q } }).topic =
            { t with Status := { t.Status with ProjectID := q } } :=
          reconcileTopic_cached r _ hne
        rw [hq, hc]
        exact ⟨hret ▸ hok, rfl⟩
  · rw [reconcileTopic_cached r t h]
    exact ⟨hok, by rw [reconcileTopic_cached r t h]⟩

/-- A topic step that succeeded succeeds again, and changes nothing, on any
Topic with the same spec that carries the project ID it resolved. -/
theorem reconcileTopic_again (r : Reconciler σ) (t t2 : Topic)
    (hok : (reconcileTopic r t).ret = none) (hspec : t2.Spec = t.Spec)
    (hpid : t2.Status.ProjectID = (reconcileTopic r t).topic.Status.ProjectID) :
    (reconcileTopic r t2).ret = none ∧ (reconcileTopic r t2).topic = t2 := by
  have hfr := reconcileTopic_frame r t
  obtain ⟨h1, h2⟩ := reconcileTopic_congr r (reconcileTopic r t).topic t2
    (hspec.trans hfr.2.2.2.2.1.symm) hpid
  obtain ⟨h3, h4⟩ := reconcileTopic_twice r t hok
  refine ⟨h1.trans h3, reconcileTopic_topic_eq r t2 ?_⟩
  rw [h2, h4, hpid]

end TopicReconciler

namespace TopicReconciler

variable {σ : Type}

/-- When the name helper and the service builder do not read the status of the
Topic, neither does the publisher step. -/
theorem reconcilePublisher_status (r : Reconciler σ) (t : Topic) (s : TopicStatus)
    (hname : ∀ (u : Topic) (s : TopicStatus),
      r.GeneratePublisherName { u with Status := s } = r.GeneratePublisherName u)
    (hmake : ∀ (args : PublisherArgs) (s : TopicStatus),
      r.MakePublisher { args with Topic := { args.Topic with Status := s } } =
        r.MakePublisher args) :
    (reconcilePublisher r { t with Status := s }).ret = (reconcilePublisher r t).ret := by
  have hm := hmake
    { Image := r.publisherImage, Topic := t,
      Labels := r.GetLabels r.controllerAgentName t.Name,
      TracingConfig := r.tracingConfigToJSON.1 } s
  simp only [] at hm
  unfold reconcilePublisher IsControlledBy
  simp only [hname t s, hm]
  repeat' split
  all_goals simp_all

theorem TopicStatus_InitializeConditions_eq_self (ts : TopicStatus)
    (h : ∀ ty ∈ topicCondSet, Conditions.GetCondition ts.Conditions ty ≠ none) :
    ts.InitializeConditions = ts := by
  unfold TopicStatus.InitializeConditions
  rw [Conditions.InitializeConditions_eq_self topicCondSet ts.Conditions h]

theorem atEntry_eq_self (t : Topic)
    (h : ∀ ty ∈ topicCondSet, Conditions.GetCondition t.Status.Conditions ty ≠ none)
    (hgen : t.Status.ObservedGeneration = t.Generation) : atEntry t = t := by
  unfold atEntry
  simp only []
  rw [TopicStatus_InitializeConditions_eq_self t.Status h]
  obtain ⟨n, ns, u, g, sp, ⟨p, ti, c, o, a⟩⟩ := t
  simp only [] at hgen
  subst hgen
  rfl

/-- The Topic handed to the publisher step: every condition of the dependency
set is present, the topic condition is settled on True, and the topic ID, the
observed generation and the spec are in place. -/
theorem afterTopicStep_settled (r : Reconciler σ) (topic : Topic) :
    (∀ ty ∈ topicCondSet,
      Conditions.GetCondition (afterTopicStep r topic).Status.Conditions ty ≠ none) ∧
    Conditions.SetCondition (afterTopicStep r topic).Status.Conditions
      { ctype := TopicConditionTopicExists, status := .ConditionTrue } =
        (afterTopicStep r topic).Status.Conditions ∧
    (afterTopicStep r topic).Status.TopicID = (afterTopicStep r topic).Spec.Topic ∧
    (afterTopicStep r topic).Status.ObservedGeneration = (afterTopicStep r topic).Generation ∧
    (afterTopicStep r topic).Spec = (atEntry topic).Spec ∧
    (afterTopicStep r topic).Status.ProjectID =
      (reconcileTopic r (atEntry topic)).topic.Status.ProjectID := by
  have hfr := reconcileTopic_frame r (atEntry topic)
  have hs := afterTopicStep_status r topic
  have hcs : (afterTopicStep r topic).Status.Conditions =
      Conditions.SetCondition
        (Conditions.InitializeConditions topicCondSet topic.Status.Conditions)
        { ctype := TopicConditionTopicExists, status := .ConditionTrue } := by
    show Conditions.MarkTrue (reconcileTopic r (atEntry topic)).topic.Status.Conditions _ = _
    rw [hfr.2.1]
    rfl
  refine ⟨?_, ?_, rfl, ?_, ?_, rfl⟩
  · intro ty hty
    rw [hcs]
    exact Conditions.GetCondition_SetCondition_ne_none _ _ _
      (Conditions.InitializeConditions_present _ _ ty hty)
  · rw [hcs]
    exact Conditions.SetCondition_idem _ _
  · rw [hs.2.2.1, hs.2.2.2.1]
  · rw [hs.2.2.2.2]; rfl

/-- Reconciling again the Topic that a reconcile with a successful topic step
left, with the same answers of the collaborators, leaves it as it is and ends
alike, provided the name helper and the service builder do not read the status
of the Topic. -/
theorem ReconcileKind_idem (r : Reconciler σ) (topic : Topic)
    (hok : (reconcileTopic r (atEntry topic)).ret = none)
    (hname : ∀ (u : Topic) (s : TopicStatus),
      r.GeneratePublisherName { u with Status := s } = r.GeneratePublisherName u)
    (hmake : ∀ (args : PublisherArgs) (s : TopicStatus),
      r.MakePublisher { args with Topic := { args.Topic with Status := s } } =
        r.MakePublisher args) :
    (ReconcileKind r (ReconcileKind r topic).topic).topic = (ReconcileKind r topic).topic ∧
    (ReconcileKind r (ReconcileKind r topic).topic).ret = (ReconcileKind r topic).ret := by
  obtain ⟨h1t, h1r⟩ := ReconcileKind_of_topic_ok r topic hok
  obtain ⟨hpres, hfix, htid, hgen, hspec, hpid⟩ := afterTopicStep_settled r topic
  have hnorm := afterPublisherStep_normal (afterTopicStep r topic)
    (reconcilePublisher r (afterTopicStep r topic)).ret
  -- the Topic left by the first reconcile
  generalize hs1 : (ReconcileKind r topic).topic = s1 at *
  generalize hx : (reconcilePublisher r (afterTopicStep r topic)).ret = x at *
  generalize hT1 : afterTopicStep r topic = T1 at *
  rw [← h1t] at hnorm
  -- it enters the second reconcile unchanged
  have hpres1 : ∀ ty ∈ topicCondSet, Conditions.GetCondition s1.Status.Conditions ty ≠ none := by
    intro ty hty
    rw [hnorm]
    exact applyMark_present _ _ ty (hpres ty hty)
  have hgen1 : s1.Status.ObservedGeneration = s1.Generation := by
    rw [hnorm]; exact hgen
  have hentry : atEntry s1 = s1 := atEntry_eq_self s1 hpres1 hgen1
  have hspec1 : s1.Spec = (atEntry topic).Spec := by rw [hnorm]; exact hspec
  have hpid1 : s1.Status.ProjectID = (reconcileTopic r (atEntry topic)).topic.Status.ProjectID := by
    rw [hnorm]; exact hpid
  obtain ⟨hok2, htop2⟩ := reconcileTopic_again r (atEntry topic) s1 hok hspec1 hpid1
  have hok2e : (reconcileTopic r (atEntry s1)).ret = none := by rw [hentry]; exact hok2
  -- the topic step of the second reconcile hands it on unchanged
  have hfix1 : Conditions.SetCondition s1.Status.Conditions
      { ctype := TopicConditionTopicExists, status := .ConditionTrue } = s1.Status.Conditions := by
    rw [hnorm]
    exact applyMark_fixed _ x _ rfl hfix
  have htid1 : s1.Status.TopicID = s1.Spec.Topic := by rw [hnorm]; exact htid
  have hafter : afterTopicStep r s1 = s1 := by
    unfold afterTopicStep
    simp only []
    rw [hentry, htop2]
    unfold TopicStatus.MarkTopicReady Conditions.MarkTrue
    rw [hfix1, ← htid1]
  -- the publisher step answers as before
  have hpub : (reconcilePublisher r s1).ret = x := by
    rw [hnorm, reconcilePublisher_status r T1 _ hname hmake]
    exact hx
  obtain ⟨h2t, h2r⟩ := ReconcileKind_of_topic_ok r s1 hok2e
  rw [hafter, hpub] at h2t h2r
  refine ⟨?_, ?_⟩
  · rw [h2t, afterPublisherStep_normal s1 x]
    rw [hnorm]
    simp only [applyMark_idem]
    cases addressWritten x <;> rfl
  · rw [h2r, h1r]
    apply afterPublisherStep_outcome
    · rw [hnorm]
    · rw [hnorm]

end TopicReconciler

namespace TopicReconciler

variable {σ : Type}

/-- C3: under policy CreateDelete, when the existence check of the reconcile
answers absent and `CreateTopic` fails with a gRPC status of code
AlreadyExists, the create is attempted and treated as success:
`reconcileTopic` returns nil, and the Topic and outcome produced by
`ReconcileKind` are those produced when `CreateTopic` succeeds, with the topic
condition True and the status topic ID equal to the declared topic name.
Moreover, when the name helper and the service builder do not read the status
of the Topic, reconciling the Topic left by the successful reconcile a second
time against the backend answering AlreadyExists leaves it as it is and ends
alike. -/
theorem C3_already_exists (r : Reconciler σ) (topic : Topic) (e : GoError)
    (hpol : topic.Spec.PropagationPolicy = TopicPolicyCreateDelete)
    (hcode : e.grpcCode = some codes_AlreadyExists)
    (hex : ∃ id, Call.Exists id (.ok false) ∈
      (ReconcileKind (withCreateTopic r (some e)) topic).log) :
    Call.CreateTopic topic.Spec.Topic (some e) ∈
      (ReconcileKind (withCreateTopic r (some e)) topic).log ∧
    (reconcileTopic (withCreateTopic r (some e)) (atEntry topic)).ret = none ∧
    (ReconcileKind (withCreateTopic r (some e)) topic).topic =
      (ReconcileKind (withCreateTopic r none) topic).topic ∧
    (ReconcileKind (withCreateTopic r (some e)) topic).ret =
      (ReconcileKind (withCreateTopic r none) topic).ret ∧
    Conditions.IsTrue (ReconcileKind (withCreateTopic r (some e)) topic).topic.Status.Conditions
      TopicConditionTopicExists = true ∧
    (ReconcileKind (withCreateTopic r (some e)) topic).topic.Status.TopicID = topic.Spec.Topic ∧
    ((∀ (u : Topic) (s : TopicStatus),
        r.GeneratePublisherName { u with Status := s } = r.GeneratePublisherName u) →
      (∀ (args : PublisherArgs) (s : TopicStatus),
        r.MakePublisher { args with Topic := { args.Topic with Status := s } } =
          r.MakePublisher args) →
      (ReconcileKind (withCreateTopic r (some e))
          (ReconcileKind (withCreateTopic r none) topic).topic).topic =
        (ReconcileKind (withCreateTopic r none) topic).topic ∧
      (ReconcileKind (withCreateTopic r (some e))
          (ReconcileKind (withCreateTopic r none) topic).topic).ret =
        (ReconcileKind (withCreateTopic r none) topic).ret) := by
  obtain ⟨id, hmem⟩ := hex
  have hmem2 := ReconcileKind_log_topic_call _ topic _ hmem (by intro ns name res; simp)
    (by simp [isServiceWrite])
  have hpol2 : (atEntry topic).Spec.PropagationPolicy ≠ TopicPolicyNoCreateNoDelete := by
    show topic.Spec.PropagationPolicy ≠ _
    rw [hpol]; decide
  obtain ⟨hae, hokc, hcreate⟩ :=
    reconcileTopic_already_exists r e (atEntry topic) hpol2 hcode ⟨id, hmem2⟩
  obtain ⟨hct, hcr⟩ := ReconcileKind_congr (withCreateTopic r (some e)) (withCreateTopic r none)
    topic (hae.trans hokc.symm) (reconcileTopic_topic_withCreateTopic r _ _ _) (fun _ => rfl)
  obtain ⟨st, htopic, hpo⟩ := ReconcileKind_topic_of_topic_ok _ topic hae
  have haft := afterTopicStep_status (withCreateTopic r (some e)) topic
  refine ⟨?_, hae, hct, hcr, ?_, ?_, ?_⟩
  · rw [ReconcileKind_log_of_topic_ok _ topic hae, List.mem_append]
    exact Or.inl hcreate
  · rw [htopic]
    have h1 := haft.1
    unfold Conditions.IsTrue at h1 ⊢
    show (match Conditions.GetCondition st.Conditions TopicConditionTopicExists with
      | some c => decide (c.status = ConditionStatus.ConditionTrue)
      | none => false) = true
    rw [hpo.2.2.2]; exact h1
  · rw [htopic]
    show st.TopicID = _
    rw [hpo.1, haft.2.1]
  · intro hname hmake
    have hidem := ReconcileKind_idem (withCreateTopic r (some e)) topic hae hname hmake
    rw [hct, hcr] at hidem
    exact hidem

/-- C3 at the sample Topic, against a backend that answers the existence check
with absent and the create with AlreadyExists; the sample helpers do not read
the status of the Topic. -/
theorem C3_already_exists_witness :
    sampleTopic.Spec.PropagationPolicy = TopicPolicyCreateDelete ∧
    sampleAlreadyExists.grpcCode = some codes_AlreadyExists ∧
    Call.Exists "my-project" (.ok false) ∈
      (ReconcileKind (withCreateTopic sampleReconciler (some sampleAlreadyExists)) sampleTopic).log ∧
    (reconcileTopic (withCreateTopic sampleReconciler (some sampleAlreadyExists))
      (atEntry sampleTopic)).ret = none ∧
    (ReconcileKind (withCreateTopic sampleReconciler (some sampleAlreadyExists)) sampleTopic).topic =
      (ReconcileKind (withCreateTopic sampleReconciler none) sampleTopic).topic ∧
    (ReconcileKind (withCreateTopic sampleReconciler (some sampleAlreadyExists))
        (ReconcileKind (withCreateTopic sampleReconciler none) sampleTopic).topic).topic =
      (ReconcileKind (withCreateTopic sampleReconciler none) sampleTopic).topic :=
  have h := C3_already_exists sampleReconciler sampleTopic sampleAlreadyExists (by decide)
    (by decide) ⟨"my-project", by decide⟩
  ⟨by decide, by decide, by decide, h.2.1, h.2.2.1,
    (h.2.2.2.2.2.2 (fun _ _ => rfl) (fun _ _ => rfl)).1⟩

/-- C4 at the sample Topics: the topic step succeeds for the one that allows
creation, and fails for the one that forbids it, whose topic ID stays empty. -/
theorem C4_topic_step_success_witness :
    (reconcileTopic sampleReconciler (atEntry sampleTopic)).ret = none ∧
    Conditions.IsTrue (ReconcileKind sampleReconciler sampleTopic).topic.Status.Conditions
      TopicConditionTopicExists = true ∧
    (ReconcileKind sampleReconciler sampleTopic).topic.Status.TopicID = "orders-topic" ∧
    (ReconcileKind sampleReconciler sampleTopicNoCreate).topic.Status.TopicID = "" :=
  ⟨by decide,
   ((C4_topic_step_success sampleReconciler sampleTopic).2.2.1 (by decide)).1,
   ((C4_topic_step_success sampleReconciler sampleTopic).2.2.1 (by decide)).2,
   (C4_topic_step_success sampleReconciler sampleTopicNoCreate).2.2.2
     { msg := "Topic \"orders-topic\" does not exist and the topic policy doesn't allow creation" }
     (by decide)⟩

end TopicReconciler

/-! ## Facts about the ingress handler -/

namespace Ingress

/-- The calls made by `toEvent` touch neither the response nor the sink. -/
theorem toEvent_log (h : Handler) (request : Request) :
    statusCodes (toEvent h request).2 = [] ∧ bodies (toEvent h request).2 = [] ∧
    (toEvent h request).2.filter isSend = [] ∧
    (∀ c ∈ (toEvent h request).2, isSend c = false) := by
  unfold toEvent
  simp only []
  repeat' split
  all_goals simp [statusCodes, bodies, isSend]

/-- An event returned by `toEvent` comes with status 202. -/
theorem toEvent_some (h : Handler) (request : Request) (event : Event)
    (hev : (toEvent h request).1.event = some event) :
    (toEvent h request).1.statusCode = StatusAccepted := by
  unfold toEvent at hev ⊢
  simp only [] at hev ⊢
  repeat' split
  all_goals simp_all

theorem statusCodes_append (a b : List Call) :
    statusCodes (a ++ b) = statusCodes a ++ statusCodes b := by
  simp [statusCodes]

theorem bodies_append (a b : List Call) : bodies (a ++ b) = bodies a ++ bodies b := by
  simp [bodies]

/-- C8: for a POST request whose path has three pieces and whose event
decodes, `ServeHTTP` calls `Send` once and writes exactly one status code,
determined by the result of that `Send` alone: 202 when the result is an ACK,
404 when it is not an ACK and wraps `ErrNotFound`, 500 for every other
result. -/
theorem C8_status_from_result (h : Handler) (request : Request) (event : Event)
    (hpost : request.Method = MethodPost)
    (hpath : (strings_Split request.Path '/').length = 3)
    (hev : (toEvent h request).1.event = some event) :
    ∃ ctx ev res,
      (ServeHTTP h request).filter isSend =
        [.Send ctx ((strings_Split request.Path '/').getD 1 "")
          ((strings_Split request.Path '/').getD 2 "") ev res] ∧
      res = h.Send ctx ((strings_Split request.Path '/').getD 1 "")
          ((strings_Split request.Path '/').getD 2 "") ev ∧
      statusCodes (ServeHTTP h request) =
        [if IsACK res then 202 else if IsErrNotFound res then 404 else 500] := by
  have hlog := toEvent_log h request
  have hcode := toEvent_some h request event hev
  refine ⟨WithTimeout request.Context (h.Now 2) decoupleSinkTimeout,
    event.SetExtension EventArrivalTime (.timestamp (h.Now 1)), _, ?_, rfl, ?_⟩
  · unfold ServeHTTP
    simp only [hpost, hpath, hev, ne_eq, not_true_eq_false, if_false]
    split
    · simp [List.filter_append, hlog.2.2.1, isSend, reportMetrics]
    · simp [List.filter_append, hlog.2.2.1, isSend, reportMetrics]
  · unfold ServeHTTP
    simp only [hpost, hpath, hev, ne_eq, not_true_eq_false, if_false]
    split
    · rename_i hack
      simp at hack
      simp only [statusCodes_append, hlog.1, List.nil_append]
      simp [statusCodes, reportMetrics, hack, StatusNotFound, StatusInternalServerError]
    · rename_i hack
      simp at hack
      simp only [statusCodes_append, hlog.1, List.nil_append]
      simp [statusCodes, reportMetrics, hack, hcode, StatusAccepted]

/-- C8 at the sample request, against a sink that answers "not found": the one
status code written is 404. -/
theorem C8_status_from_result_witness :
    sampleRequest.Method = MethodPost ∧
    (strings_Split sampleRequest.Path '/').length = 3 ∧
    (toEvent (withSend sampleHandler sampleNotFoundResult) sampleRequest).1.event =
      some sampleEvent ∧
    statusCodes (ServeHTTP (withSend sampleHandler sampleNotFoundResult) sampleRequest) = [404] ∧
    statusCodes (ServeHTTP sampleHandler sampleRequest) = [202] ∧
    ∃ ctx ev res,
      (ServeHTTP (withSend sampleHandler sampleNotFoundResult) sampleRequest).filter isSend =
        [.Send ctx "ns1" "br1" ev res] :=
  ⟨by decide, by decide, by decide, by decide, by decide,
    (C8_status_from_result (withSend sampleHandler sampleNotFoundResult) sampleRequest
      sampleEvent (by decide) (by decide) (by decide)).imp
      (fun _ hx => hx.imp (fun _ hy => hy.imp (fun _ hz => hz.1)))⟩

/-- C9, against the claim as first stated: the path `//` is not made of two
non-empty segments (both of its segments are empty), yet a POST to it is not
answered 404: the event is decoded, `Send` is called with an empty namespace
and an empty broker name, and the status written is 202. -/
theorem C9_empty_segments_counterexample :
    strings_Split "//" '/' = ["", "", ""] ∧
    statusCodes (ServeHTTP sampleHandler { Method := "POST", Path := "//" }) = [202] ∧
    (ServeHTTP sampleHandler { Method := "POST", Path := "//" }).filter isToEvent =
      [.ToEvent (some sampleEvent) none] ∧
    (ServeHTTP sampleHandler { Method := "POST", Path := "//" }).filter isSend =
      [.Send { deadline := some 30000001002 } "" ""
        (sampleEvent.SetExtension EventArrivalTime (.timestamp 1001)) none] := by
  decide

/-- C9, amended: a POST request whose path does not split on `/` into exactly
three pieces is answered 404 with the body naming the malformed path, and
nothing else happens: no event is decoded and `Send` is not called. -/
theorem C9_malformed_path (h : Handler) (request : Request)
    (hpost : request.Method = MethodPost)
    (hlen : (strings_Split request.Path '/').length ≠ 3) :
    ServeHTTP h request =
      [.WriteHeader 404,
       .Write ("Malformed request path. want: '/<ns>/<broker>'; got: " ++ request.Path ++ "..")] ∧
    (∀ c ∈ ServeHTTP h request, isToEvent c = false ∧ isSend c = false) := by
  have e : ServeHTTP h request =
      [.WriteHeader 404,
       .Write ("Malformed request path. want: '/<ns>/<broker>'; got: " ++ request.Path ++ "..")] := by
    unfold ServeHTTP
    simp [hpost, hlen, StatusNotFound]
  rw [e]
  refine ⟨rfl, ?_⟩
  intro c hc
  simp at hc
  rcases hc with hc | hc <;> subst hc <;> exact ⟨rfl, rfl⟩

/-- C9 amended, at the paths `/ns1/br1/extra` and `/ns1`. -/
theorem C9_malformed_path_witness :
    statusCodes (ServeHTTP sampleHandler { Method := "POST", Path := "/ns1/br1/extra" }) = [404] ∧
    (∀ c ∈ ServeHTTP sampleHandler { Method := "POST", Path := "/ns1/br1/extra" },
      isToEvent c = false ∧ isSend c = false) ∧
    (∀ c ∈ ServeHTTP sampleHandler { Method := "POST", Path := "/ns1" },
      isToEvent c = false ∧ isSend c = false) :=
  ⟨by rw [(C9_malformed_path sampleHandler { Method := "POST", Path := "/ns1/br1/extra" }
        (by decide) (by decide)).1]; decide,
   (C9_malformed_path sampleHandler { Method := "POST", Path := "/ns1/br1/extra" }
      (by decide) (by decide)).2,
   (C9_malformed_path sampleHandler { Method := "POST", Path := "/ns1" }
      (by decide) (by decide)).2⟩

/-- C10: for a POST request whose path has three pieces, when the encoding of
the message is unknown or the conversion to an event returns an error,
`toEvent` returns no event with status 400 and a diagnostic message,
`ServeHTTP` writes the one status 400 and that message as the body, and `Send`
is never called. -/
theorem C10_undecodable (h : Handler) (request : Request)
    (hpost : request.Method = MethodPost)
    (hpath : (strings_Split request.Path '/').length = 3)
    (hbad : h.ReadEncoding request = .EncodingUnknown ∨ ∃ err, (h.ToEvent request).2 = some err) :
    (toEvent h request).1.event = none ∧
    (toEvent h request).1.statusCode = 400 ∧
    ((toEvent h request).1.msg =
        "Encoding is unknown. Not a cloud event? request: " ++ h.fmtRequest request ∨
      ∃ err, (h.ToEvent request).2 = some err ∧
        (toEvent h request).1.msg = "Failed to convert request to event: " ++ err.msg) ∧
    statusCodes (ServeHTTP h request) = [400] ∧
    bodies (ServeHTTP h request) = [(toEvent h request).1.msg] ∧
    (∀ c ∈ ServeHTTP h request, isSend c = false) := by
  have hlog := toEvent_log h request
  have hte : (toEvent h request).1.event = none ∧ (toEvent h request).1.statusCode = 400 ∧
      ((toEvent h request).1.msg =
          "Encoding is unknown. Not a cloud event? request: " ++ h.fmtRequest request ∨
        ∃ err, (h.ToEvent request).2 = some err ∧
          (toEvent h request).1.msg = "Failed to convert request to event: " ++ err.msg) := by
    unfold toEvent
    simp only []
    rcases hbad with hu | ⟨err, herr⟩
    · simp [hu, StatusBadRequest]
    · by_cases hu : h.ReadEncoding request = .EncodingUnknown
      · simp [hu, StatusBadRequest]
      · simp [hu, herr, StatusBadRequest]
  obtain ⟨hnone, hcode, hmsg⟩ := hte
  have e : ServeHTTP h request =
      (toEvent h request).2 ++ [.WriteHeader 400, .Write (toEvent h request).1.msg] := by
    unfold ServeHTTP
    simp only [hpost, hpath, hnone, hcode, ne_eq, not_true_eq_false, if_false]
  refine ⟨hnone, hcode, hmsg, ?_, ?_, ?_⟩
  · rw [e, statusCodes_append, hlog.1]; rfl
  · rw [e, bodies_append, hlog.2.1]; rfl
  · intro c hc
    rw [e, List.mem_append] at hc
    rcases hc with hc | hc
    · exact hlog.2.2.2 c hc
    · simp at hc
      rcases hc with hc | hc <;> subst hc <;> rfl

/-- C10 at the sample request, for a message of unknown encoding and for a
conversion that fails. -/
theorem C10_undecodable_witness :
    statusCodes (ServeHTTP { sampleHandler with ReadEncoding := fun _ => .EncodingUnknown }
      sampleRequest) = [400] ∧
    (∀ c ∈ ServeHTTP { sampleHandler with ReadEncoding := fun _ => .EncodingUnknown }
      sampleRequest, isSend c = false) ∧
    statusCodes (ServeHTTP
      { sampleHandler with ToEvent := fun _ => (none, some { msg := "invalid specversion" }) }
      sampleRequest) = [400] :=
  ⟨(C10_undecodable { sampleHandler with ReadEncoding := fun _ => .EncodingUnknown }
      sampleRequest (by decide) (by decide) (Or.inl rfl)).2.2.2.1,
   (C10_undecodable { sampleHandler with ReadEncoding := fun _ => .EncodingUnknown }
      sampleRequest (by decide) (by decide) (Or.inl rfl)).2.2.2.2.2,
   (C10_undecodable
      { sampleHandler with ToEvent := fun _ => (none, some { msg := "invalid specversion" }) }
      sampleRequest (by decide) (by decide) (Or.inr ⟨_, rfl⟩)).2.2.2.1⟩

end Ingress

/-! ## Further facts about the ingress handler -/

namespace Ingress

theorem metricSamples_append (a b : List Call) :
    metricSamples (a ++ b) = metricSamples a ++ metricSamples b := by
  simp [metricSamples]

/-- The calls made by `toEvent` hand no sample to the stats reporter. -/
theorem toEvent_no_metric (h : Handler) (request : Request) :
    metricSamples (toEvent h request).2 = [] := by
  unfold toEvent
  simp only []
  repeat' split
  all_goals simp [metricSamples]

/-- A string that starts with a non-empty string is not empty. -/
theorem append_ne_empty (a b : String) (ha : a ≠ "") : a ++ b ≠ "" := by
  intro hab
  apply ha
  have h1 : (a ++ b).data = [] := by rw [hab]
  rw [String.data_append] at h1
  have h2 : a.data = [] := (List.append_eq_nil.mp h1).1
  exact String.ext h2

/-- The status that `toEvent` returns: 400 with a non-empty message, or
202. -/
theorem toEvent_status (h : Handler) (request : Request) :
    ((toEvent h request).1.statusCode = 400 ∧ (toEvent h request).1.msg ≠ "") ∨
    (toEvent h request).1.statusCode = 202 := by
  unfold toEvent
  simp only []
  repeat' split
  · exact Or.inl ⟨rfl, append_ne_empty _ _ (by decide)⟩
  · exact Or.inl ⟨rfl, append_ne_empty _ _ (by decide)⟩
  · exact Or.inr rfl

/-- The calls of `ServeHTTP` for a POST request whose path has three pieces and
whose event decodes. -/
theorem ServeHTTP_decoded (h : Handler) (request : Request) (event : Event)
    (hpost : request.Method = MethodPost)
    (hpath : (strings_Split request.Path '/').length = 3)
    (hev : (toEvent h request).1.event = some event) :
    ∃ code msg,
      (code = if IsACK (h.Send (WithTimeout request.Context (h.Now 2) decoupleSinkTimeout)
          ((strings_Split request.Path '/').getD 1 "") ((strings_Split request.Path '/').getD 2 "")
          (event.SetExtension EventArrivalTime (.timestamp (h.Now 1))))
        then 202
        else if IsErrNotFound (h.Send (WithTimeout request.Context (h.Now 2) decoupleSinkTimeout)
          ((strings_Split request.Path '/').getD 1 "") ((strings_Split request.Path '/').getD 2 "")
          (event.SetExtension EventArrivalTime (.timestamp (h.Now 1))))
        then 404 else 500) ∧
      (msg = if code = 202 then [] else
        [Call.Write ("Error publishing to PubSub for broker " ++
          (strings_Split request.Path '/').getD 1 "" ++ "/" ++
          (strings_Split request.Path '/').getD 2 "" ++ ". event: " ++
          h.fmtEvent (event.SetExtension EventArrivalTime (.timestamp (h.Now 1))) ++
          ", err: " ++ h.fmtResult
            (h.Send (WithTimeout request.Context (h.Now 2) decoupleSinkTimeout)
              ((strings_Split request.Path '/').getD 1 "")
              ((strings_Split request.Path '/').getD 2 "")
              (event.SetExtension EventArrivalTime (.timestamp (h.Now 1)))) ++ ".")]) ∧
      ServeHTTP h request =
        (toEvent h request).2 ++
          [.Send (WithTimeout request.Context (h.Now 2) decoupleSinkTimeout)
            ((strings_Split request.Path '/').getD 1 "")
            ((strings_Split request.Path '/').getD 2 "")
            (event.SetExtension EventArrivalTime (.timestamp (h.Now 1)))
            (h.Send (WithTimeout request.Context (h.Now 2) decoupleSinkTimeout)
              ((strings_Split request.Path '/').getD 1 "")
              ((strings_Split request.Path '/').getD 2 "")
              (event.SetExtension EventArrivalTime (.timestamp (h.Now 1)))),
           .WriteHeader code] ++ msg ++
          [.reportEventDispatchTime
            { namespace_ := (strings_Split request.Path '/').getD 1 "",
              broker := (strings_Split request.Path '/').getD 2 "",
              eventType := event.Type_, responseCode := code }
            ((h.Now 3 : Int) - (h.Now 0 : Int)),
           .cancel] := by
  have hcode := toEvent_some h request event hev
  generalize hres : h.Send (WithTimeout request.Context (h.Now 2) decoupleSinkTimeout)
    ((strings_Split request.Path '/').getD 1 "") ((strings_Split request.Path '/').getD 2 "")
    (event.SetExtension EventArrivalTime (.timestamp (h.Now 1))) = res
  refine ⟨_, _, rfl, rfl, ?_⟩
  unfold ServeHTTP
  simp only [hpost, hpath, hev, ne_eq, not_true_eq_false, if_false, hres]
  by_cases hack : IsACK res = true
  · simp [hack, hcode, StatusAccepted, reportMetrics, Event.SetExtension]
  · simp only [Bool.not_eq_true] at hack
    by_cases hnf : IsErrNotFound res = true
    · simp [hack, hnf, StatusNotFound, reportMetrics, Event.SetExtension]
    · simp only [Bool.not_eq_true] at hnf
      simp [hack, hnf, StatusInternalServerError, reportMetrics, Event.SetExtension]

/-- The calls of `ServeHTTP` for a POST request whose path does not have three
pieces. -/
theorem ServeHTTP_malformed (h : Handler) (request : Request)
    (hpost : request.Method = MethodPost)
    (hlen : (strings_Split request.Path '/').length ≠ 3) :
    ServeHTTP h request =
      [.WriteHeader 404,
       .Write ("Malformed request path. want: '/<ns>/<broker>'; got: " ++ request.Path ++ "..")] := by
  unfold ServeHTTP
  simp [hpost, hlen, StatusNotFound]

/-- The calls of `ServeHTTP` for a POST request whose path has three pieces and
for which `toEvent` returns no event. -/
theorem ServeHTTP_undecoded (h : Handler) (request : Request)
    (hpost : request.Method = MethodPost)
    (hpath : (strings_Split request.Path '/').length = 3)
    (hev : (toEvent h request).1.event = none) :
    ServeHTTP h request =
      (toEvent h request).2 ++
        [.WriteHeader (toEvent h request).1.statusCode, .Write (toEvent h request).1.msg] := by
  unfold ServeHTTP
  simp only [hpost, hpath, hev, ne_eq, not_true_eq_false, if_false]

/-- C11: a request whose method is not POST, whatever its path and body, is
answered 405 and nothing else happens: the only call of `ServeHTTP` is
`WriteHeader(405)`, so no encoding is read, no event is converted and `Send`
is not called. -/
theorem C11_method_not_allowed (h : Handler) (request : Request)
    (hmethod : request.Method ≠ MethodPost) :
    ServeHTTP h request = [.WriteHeader 405] ∧
    statusCodes (ServeHTTP h request) = [405] ∧
    (∀ c ∈ ServeHTTP h request, isToEvent c = false ∧ isSend c = false) := by
  have e : ServeHTTP h request = [.WriteHeader 405] := by
    unfold ServeHTTP
    simp [hmethod, StatusMethodNotAllowed]
  rw [e]
  refine ⟨rfl, rfl, ?_⟩
  intro c hc
  simp at hc
  subst hc
  exact ⟨rfl, rfl⟩

/-- C11 at the sample GET request. -/
theorem C11_method_not_allowed_witness :
    sampleGetRequest.Method ≠ MethodPost ∧
    ServeHTTP sampleHandler sampleGetRequest = [.WriteHeader 405] :=
  ⟨by decide, (C11_method_not_allowed sampleHandler sampleGetRequest (by decide)).1⟩

/-- C12, against the claim as first stated: the sample GET request is answered
405 and no sample is handed to the stats reporter. -/
theorem C12_no_metric_on_early_exit_counterexample :
    statusCodes (ServeHTTP sampleHandler sampleGetRequest) = [405] ∧
    metricSamples (ServeHTTP sampleHandler sampleGetRequest) = [] ∧
    (metricSamples (ServeHTTP sampleHandler sampleGetRequest)).length ≠ 1 := by
  decide

/-- C12, amended: a request that reaches the publish step (POST, three path
pieces, decoded event) hands exactly one sample to the stats reporter, tagged
with the namespace, the broker name, the type of the event and the one status
code written to the response, which is 202 when the sink acknowledges; a
request that exits before (wrong method, malformed path, no event) hands
none. -/
theorem C12_metrics (h : Handler) (request : Request) :
    (∀ event, request.Method = MethodPost →
      (strings_Split request.Path '/').length = 3 →
      (toEvent h request).1.event = some event →
      ∃ code,
        statusCodes (ServeHTTP h request) = [code] ∧
        metricSamples (ServeHTTP h request) =
          [{ namespace_ := (strings_Split request.Path '/').getD 1 "",
             broker := (strings_Split request.Path '/').getD 2 "",
             eventType := event.Type_, responseCode := code }] ∧
        (IsACK (h.Send (WithTimeout request.Context (h.Now 2) decoupleSinkTimeout)
            ((strings_Split request.Path '/').getD 1 "")
            ((strings_Split request.Path '/').getD 2 "")
            (event.SetExtension EventArrivalTime (.timestamp (h.Now 1)))) = true →
          code = 202)) ∧
    ((request.Method ≠ MethodPost ∨ (strings_Split request.Path '/').length ≠ 3 ∨
        (toEvent h request).1.event = none) →
      metricSamples (ServeHTTP h request) = []) := by
  refine ⟨?_, ?_⟩
  · intro event hpost hpath hev
    obtain ⟨code, msg, hcode, hmsg, hlog⟩ := ServeHTTP_decoded h request event hpost hpath hev
    refine ⟨code, ?_, ?_, ?_⟩
    · rw [hlog]
      simp only [statusCodes_append, (toEvent_log h request).1, List.nil_append]
      by_cases hc : code = 202 <;> simp [hmsg, hc, statusCodes]
    · rw [hlog]
      simp only [metricSamples_append, toEvent_no_metric h request, List.nil_append]
      by_cases hc : code = 202 <;> simp [hmsg, hc, metricSamples]
    · intro hack
      rw [hcode, if_pos hack]
  · intro hearly
    by_cases hpost : request.Method = MethodPost
    · by_cases hpath : (strings_Split request.Path '/').length = 3
      · have hev : (toEvent h request).1.event = none := by
          rcases hearly with h1 | h1 | h1
          · exact absurd hpost h1
          · exact absurd hpath h1
          · exact h1
        rw [ServeHTTP_undecoded h request hpost hpath hev, metricSamples_append,
          toEvent_no_metric h request]
        rfl
      · rw [(ServeHTTP_malformed h request hpost hpath)]
        rfl
    · have e : ServeHTTP h request = [.WriteHeader 405] := by
        unfold ServeHTTP
        simp [hpost, StatusMethodNotAllowed]
      rw [e]
      rfl

end Ingress

namespace Ingress

/-- C12 amended, at the sample request: an acknowledged publish hands one
sample tagged 202 to the stats reporter, a publish to a sink answering "not
found" one sample tagged 404, and the sample GET request none. -/
theorem C12_metrics_witness :
    metricSamples (ServeHTTP sampleHandler sampleRequest) =
      [{ namespace_ := "ns1", broker := "br1", eventType := "sample.type",
         responseCode := 202 }] ∧
    metricSamples (ServeHTTP (withSend sampleHandler sampleNotFoundResult) sampleRequest) =
      [{ namespace_ := "ns1", broker := "br1", eventType := "sample.type",
         responseCode := 404 }] ∧
    (∃ code, statusCodes (ServeHTTP sampleHandler sampleRequest) = [code] ∧
      metricSamples (ServeHTTP sampleHandler sampleRequest) =
        [{ namespace_ := "ns1", broker := "br1", eventType := "sample.type",
           responseCode := code }]) ∧
    metricSamples (ServeHTTP sampleHandler sampleGetRequest) = [] :=
  ⟨by decide, by decide,
   ((C12_metrics sampleHandler sampleRequest).1 sampleEvent (by decide) (by decide)
      (by decide)).imp (fun _ hx => ⟨hx.1, hx.2.1⟩),
   (C12_metrics sampleHandler sampleGetRequest).2 (Or.inl (by decide))⟩

/-- C13, against the claim as first stated: the sample GET request is answered
with the non-2xx status 405 and no body is written at all. -/
theorem C13_no_body_on_405_counterexample :
    statusCodes (ServeHTTP sampleHandler sampleGetRequest) = [405] ∧
    bodies (ServeHTTP sampleHandler sampleGetRequest) = [] := by
  decide

/-- C13, amended: `ServeHTTP` writes exactly one status code; when that code
is neither 405 nor in the 2xx range (it is then 404, 400 or 500), exactly one
body is written and it is a non-empty diagnostic string; with 405 no body is
written. -/
theorem C13_error_bodies (h : Handler) (request : Request) :
    ∃ code, statusCodes (ServeHTTP h request) = [code] ∧
      (code = 405 → bodies (ServeHTTP h request) = []) ∧
      (code ≠ 405 → ¬ (200 ≤ code ∧ code < 300) →
        (code = 404 ∨ code = 400 ∨ code = 500) ∧
        ∃ msg, bodies (ServeHTTP h request) = [msg] ∧ msg ≠ "") := by
  by_cases hpost : request.Method = MethodPost
  · by_cases hpath : (strings_Split request.Path '/').length = 3
    · cases hev : (toEvent h request).1.event with
      | none =>
        have e := ServeHTTP_undecoded h request hpost hpath hev
        refine ⟨(toEvent h request).1.statusCode, ?_, ?_, ?_⟩
        · rw [e, statusCodes_append, (toEvent_log h request).1]; rfl
        · intro hc
          rcases toEvent_status h request with h1 | h1 <;> omega
        · intro _ h2
          rcases toEvent_status h request with h1 | h1
          · refine ⟨Or.inr (Or.inl h1.1), (toEvent h request).1.msg, ?_, h1.2⟩
            rw [e, bodies_append, (toEvent_log h request).2.1]; rfl
          · exact absurd ⟨by omega, by omega⟩ h2
      | some event =>
        obtain ⟨code, msg, hcode, hmsg, hlog⟩ :=
          ServeHTTP_decoded h request event hpost hpath hev
        have hcases : code = 202 ∨ code = 404 ∨ code = 500 := by
          rw [hcode]
          repeat' split
          all_goals simp
        refine ⟨code, ?_, ?_, ?_⟩
        · rw [hlog]
          simp only [statusCodes_append, (toEvent_log h request).1, List.nil_append]
          by_cases hc : code = 202 <;> simp [hmsg, hc, statusCodes]
        · intro hc
          omega
        · intro _ h2
          have hne : code ≠ 202 := fun e => h2 ⟨by omega, by omega⟩
          refine ⟨by omega, ?_⟩
          rw [hlog, hmsg, if_neg hne]
          simp only [bodies_append, (toEvent_log h request).2.1, List.nil_append]
          refine ⟨_, rfl, ?_⟩
          simp only [String.append_assoc]
          exact append_ne_empty _ _ (by decide)
    · refine ⟨404, ?_, ?_, ?_⟩
      · rw [ServeHTTP_malformed h request hpost hpath]; rfl
      · intro hc; omega
      · intro _ _
        refine ⟨Or.inl rfl, _, by rw [ServeHTTP_malformed h request hpost hpath]; rfl, ?_⟩
        simp only [String.append_assoc]
        exact append_ne_empty _ _ (by decide)
  · have e : ServeHTTP h request = [.WriteHeader 405] := by
      unfold ServeHTTP
      simp [hpost, StatusMethodNotAllowed]
    refine ⟨405, by rw [e]; rfl, fun _ => by rw [e]; rfl, fun hc => absurd rfl hc⟩

/-- C13 amended, at the sample request against a sink whose publish fails: the
status is 500 and one non-empty body is written. -/
theorem C13_error_bodies_witness :
    statusCodes (ServeHTTP (withSend sampleHandler sampleFailedResult) sampleRequest) = [500] ∧
    ∃ code, statusCodes (ServeHTTP (withSend sampleHandler sampleFailedResult) sampleRequest)
        = [code] ∧
      (code ≠ 405 → ¬ (200 ≤ code ∧ code < 300) →
        (code = 404 ∨ code = 400 ∨ code = 500) ∧
        ∃ msg, bodies (ServeHTTP (withSend sampleHandler sampleFailedResult) sampleRequest)
          = [msg] ∧ msg ≠ "") :=
  ⟨by decide,
   (C13_error_bodies (withSend sampleHandler sampleFailedResult) sampleRequest).imp
     (fun _ hx => ⟨hx.1, hx.2.2⟩)⟩

/-- C19, against the claim as first stated: for the sample request arriving
with a context whose own deadline (at 2000) is earlier than 30 seconds after
the derivation (at 1002), the context passed to `Send` has that earlier
deadline, not the fixed bound. -/
theorem C19_caller_deadline_counterexample :
    (ServeHTTP sampleHandler { sampleRequest with Context := { deadline := some 2000 } }).filter
        isSend =
      [.Send { deadline := some 2000 } "ns1" "br1"
        (sampleEvent.SetExtension EventArrivalTime (.timestamp 1001)) none] ∧
    (2000 : Nat) ≠ 1002 + 30000000000 := by
  decide

/-- C19, amended: for a request that reaches the publish step, the context
passed to `Send` is derived from the context of the request with a timeout of
30 seconds.  Its deadline is 30 seconds after the derivation when the context
of the request has no deadline or a later one, and is the deadline of the
request when that one is earlier; a cancelled context of the request gives a
cancelled context to `Send`. -/
theorem C19_send_deadline (h : Handler) (request : Request) (event : Event)
    (hpost : request.Method = MethodPost)
    (hpath : (strings_Split request.Path '/').length = 3)
    (hev : (toEvent h request).1.event = some event) :
    ∃ ctx ns broker ev res,
      (ServeHTTP h request).filter isSend = [.Send ctx ns broker ev res] ∧
      ctx = WithTimeout request.Context (h.Now 2) decoupleSinkTimeout ∧
      (request.Context.deadline = none → ctx.deadline = some (h.Now 2 + 30000000000)) ∧
      (∀ d, request.Context.deadline = some d → h.Now 2 + 30000000000 ≤ d →
        ctx.deadline = some (h.Now 2 + 30000000000)) ∧
      (∀ d, request.Context.deadline = some d → d < h.Now 2 + 30000000000 →
        ctx.deadline = some d) ∧
      ctx.cancelled = request.Context.cancelled := by
  obtain ⟨code, msg, hcode, hmsg, hlog⟩ := ServeHTTP_decoded h request event hpost hpath hev
  refine ⟨WithTimeout request.Context (h.Now 2) decoupleSinkTimeout,
    (strings_Split request.Path '/').getD 1 "", (strings_Split request.Path '/').getD 2 "",
    event.SetExtension EventArrivalTime (.timestamp (h.Now 1)),
    h.Send (WithTimeout request.Context (h.Now 2) decoupleSinkTimeout)
      ((strings_Split request.Path '/').getD 1 "") ((strings_Split request.Path '/').getD 2 "")
      (event.SetExtension EventArrivalTime (.timestamp (h.Now 1))),
    ?_, rfl, ?_, ?_, ?_, ?_⟩
  · rw [hlog]
    simp only [List.filter_append, (toEvent_log h request).2.2.1, List.nil_append]
    by_cases hc : code = 202 <;> simp [hmsg, hc, isSend]
  · intro hn
    simp [WithTimeout, hn, decoupleSinkTimeout]
  · intro d hd hle
    have : ¬ d < h.Now 2 + 30000000000 := by omega
    simp [WithTimeout, hd, decoupleSinkTimeout, this]
  · intro d hd hlt
    simp [WithTimeout, hd, decoupleSinkTimeout, hlt]
  · unfold WithTimeout
    repeat' split
    all_goals rfl

/-- C19 amended, at the sample request: without a deadline of its own the
context passed to `Send` ends 30 seconds after the derivation at 1002. -/
theorem C19_send_deadline_witness :
    (ServeHTTP sampleHandler sampleRequest).filter isSend =
      [.Send { deadline := some 30000001002 } "ns1" "br1"
        (sampleEvent.SetExtension EventArrivalTime (.timestamp 1001)) none] ∧
    ∃ ctx ns broker ev res,
      (ServeHTTP sampleHandler sampleRequest).filter isSend = [.Send ctx ns broker ev res] ∧
      ctx = WithTimeout sampleRequest.Context (sampleHandler.Now 2) decoupleSinkTimeout :=
  ⟨by decide,
   (C19_send_deadline sampleHandler sampleRequest sampleEvent (by decide) (by decide)
      (by decide)).imp
     (fun _ h1 => h1.imp (fun _ h2 => h2.imp (fun _ h3 => h3.imp (fun _ h4 =>
       h4.imp (fun _ h5 => ⟨h5.1, h5.2.1⟩)))))⟩

end Ingress

/-! ## Further facts about the Topic reconciler -/

namespace TopicReconciler

variable {σ : Type}

/-- A step of the topic step that fails in a way it does not tolerate makes it
return that error. -/
theorem reconcileTopic_error_of_call (r : Reconciler σ) (t : Topic) (err : GoError) :
    ∀ c ∈ (reconcileTopic r t).log, topicStepFailure c err →
      (reconcileTopic r t).ret = some err := by
  unfold reconcileTopic topicStepFailure
  simp only []
  repeat' split
  all_goals simp_all
  all_goals
    intro e
    rw [← e]
    assumption

/-- The outcome of the statements after the publisher step when the publisher
step succeeded is never a Warning event. -/
theorem afterPublisherStep_ok_not_warning (t : Topic) (svc : Service σ) (ev : ReconcilerEvent)
    (h : (afterPublisherStep t (.ok svc)).2 = .returned ev) : ev.EventType ≠ "Warning" := by
  unfold afterPublisherStep at h
  simp only [] at h
  repeat' split at h
  all_goals simp [NewEvent, EventTypeNormal] at h
  all_goals
    rw [← h]
    show "Normal" ≠ "Warning"
    decide

/-- C14: whenever `ReconcileKind` returns a Warning event, either the topic
step failed with some error and the topic condition is False afterwards, or
the topic step succeeded, the publisher step failed with some error and the
publisher condition is False afterwards; in both cases the condition carries
the reason and the message of the returned event, the reason being
TopicReconcileFailed, respectively PublisherReconcileFailed, and the message
ending with the text of the error.  A failed project resolution, client
creation or existence check, and a create failing with anything but a gRPC
status of code AlreadyExists, each make the topic step fail with that
error. -/
theorem C14_error_conditions (r : Reconciler σ) (topic : Topic) :
    (∀ ev, (ReconcileKind r topic).ret = .returned ev → ev.EventType = "Warning" →
      (∃ err, (reconcileTopic r (atEntry topic)).ret = some err ∧
        ev.Reason = "TopicReconcileFailed" ∧
        ev.Message = "Failed to reconcile Pub/Sub topic: " ++ err.msg ∧
        Conditions.GetCondition (ReconcileKind r topic).topic.Status.Conditions
            TopicConditionTopicExists =
          some { ctype := TopicConditionTopicExists, status := .ConditionFalse,
                 reason := ev.Reason, message := ev.Message }) ∨
      (∃ err, (reconcileTopic r (atEntry topic)).ret = none ∧
        (reconcilePublisher r (afterTopicStep r topic)).ret = .fail err ∧
        ev.Reason = "PublisherReconcileFailed" ∧
        ev.Message = "Failed to reconcile Publisher: " ++ err.msg ∧
        Conditions.GetCondition (ReconcileKind r topic).topic.Status.Conditions
            TopicConditionPublisherReady =
          some { ctype := TopicConditionPublisherReady, status := .ConditionFalse,
                 reason := ev.Reason, message := ev.Message })) ∧
    (∀ err, ∀ c ∈ (ReconcileKind r topic).log, topicStepFailure c err →
      (reconcileTopic r (atEntry topic)).ret = some err ∧
      (ReconcileKind r topic).ret =
        .returned { EventType := "Warning", Reason := "TopicReconcileFailed",
                    Message := "Failed to reconcile Pub/Sub topic: " ++ err.msg }) ∧
    (∀ err, (reconcileTopic r (atEntry topic)).ret = none →
      (reconcilePublisher r (afterTopicStep r topic)).ret = .fail err →
      (ReconcileKind r topic).ret =
        .returned { EventType := "Warning", Reason := "PublisherReconcileFailed",
                    Message := "Failed to reconcile Publisher: " ++ err.msg }) := by
  refine ⟨?_, ?_, ?_⟩
  · intro ev hret hwarn
    cases hrt : (reconcileTopic r (atEntry topic)).ret with
    | some err =>
      rw [ReconcileKind_of_topic_error r topic err hrt] at hret ⊢
      simp only [Outcome.returned.injEq] at hret
      subst hret
      exact Or.inl ⟨err, rfl, rfl, rfl, Conditions.GetCondition_MarkFalse _ _ _ _⟩
    | none =>
      cases hrp : (reconcilePublisher r (afterTopicStep r topic)).ret with
      | fail err =>
        rw [ReconcileKind_of_publisher_error r topic err hrt hrp] at hret ⊢
        simp only [Outcome.returned.injEq] at hret
        subst hret
        exact Or.inr ⟨err, rfl, rfl, rfl, rfl, Conditions.GetCondition_MarkFalse _ _ _ _⟩
      | ok svc =>
        have h2 := (ReconcileKind_of_topic_ok r topic hrt).2
        rw [hrp, hret] at h2
        exact absurd hwarn (afterPublisherStep_ok_not_warning _ svc ev h2.symm)
  · intro err c hc hfail
    have hc2 : c ∈ (reconcileTopic r (atEntry topic)).log := by
      apply ReconcileKind_log_topic_call r topic c hc
      · intro ns name res e
        subst e
        simp [topicStepFailure] at hfail
      · unfold topicStepFailure at hfail
        rcases hfail with ⟨_, e⟩ | ⟨_, e⟩ | ⟨_, e⟩ | ⟨_, e, _⟩ <;> subst e <;> rfl
    have hrt := reconcileTopic_error_of_call r (atEntry topic) err c hc2 hfail
    refine ⟨hrt, ?_⟩
    rw [ReconcileKind_of_topic_error r topic err hrt]
    rfl
  · intro err hrt hrp
    rw [ReconcileKind_of_publisher_error r topic err hrt hrp]
    rfl

/-- C14 at the sample Topic: against a client factory that fails, the run
returns the Warning event TopicReconcileFailed with the text of that error;
and against a lister that finds a foreign publisher service, the Warning event
PublisherReconcileFailed, with the publisher condition False. -/
theorem C14_error_conditions_witness :
    (ReconcileKind (withCreateClient sampleReconciler (some { msg := "no credentials" }))
        sampleTopic).ret =
      .returned { EventType := "Warning", Reason := "TopicReconcileFailed",
                  Message := "Failed to reconcile Pub/Sub topic: no credentials" } ∧
    Conditions.IsFalse
      (ReconcileKind (withService sampleReconciler sampleForeignService) sampleTopic).topic.Status.Conditions
      TopicConditionPublisherReady = true ∧
    ((∃ err, (reconcileTopic (withService sampleReconciler sampleForeignService)
          (atEntry sampleTopic)).ret = some err) ∨
     (∃ err, (reconcilePublisher (withService sampleReconciler sampleForeignService)
          (afterTopicStep (withService sampleReconciler sampleForeignService) sampleTopic)).ret =
        .fail err)) :=
  ⟨((C14_error_conditions (withCreateClient sampleReconciler (some { msg := "no credentials" }))
      sampleTopic).2.1 { msg := "no credentials" }
      (.createClientFn "my-project" (some { msg := "no credentials" })) (by decide)
      (Or.inr (Or.inl ⟨"my-project", rfl⟩))).2,
   by decide,
   ((C14_error_conditions (withService sampleReconciler sampleForeignService) sampleTopic).1
      { EventType := "Warning", Reason := "PublisherReconcileFailed",
        Message := "Failed to reconcile Publisher: Topic \"orders\" does not own publisher service: \"cre-orders-publish\"" }
      (by decide) rfl).imp
     (fun hx => hx.imp (fun _ hy => hy.1))
     (fun hx => hx.imp (fun _ hy => hy.2.1))⟩

/-- C18: in `reconcileTopic` and in `deleteTopic`, when `createClientFn`
returned a client, `Close` is called exactly once and it is the last call made,
on every path; when `createClientFn` failed or was not called, `Close` is not
called. -/
theorem C18_client_closed (r : Reconciler σ) (topic : Topic) :
    ((∃ c ∈ (reconcileTopic r topic).log, isClientCreated c = true) →
      (reconcileTopic r topic).log.filter isClose = [.Close] ∧
      (reconcileTopic r topic).log.getLast? = some .Close) ∧
    ((∀ c ∈ (reconcileTopic r topic).log, isClientCreated c = false) →
      (reconcileTopic r topic).log.filter isClose = []) ∧
    ((∃ c ∈ (deleteTopic r topic).log, isClientCreated c = true) →
      (deleteTopic r topic).log.filter isClose = [.Close] ∧
      (deleteTopic r topic).log.getLast? = some .Close) ∧
    ((∀ c ∈ (deleteTopic r topic).log, isClientCreated c = false) →
      (deleteTopic r topic).log.filter isClose = []) := by
  refine ⟨?_, ?_, ?_, ?_⟩
  · intro ⟨c, hmem, hc⟩
    have hany : (reconcileTopic r topic).log.any isClientCreated = true :=
      List.any_eq_true.mpr ⟨c, hmem, hc⟩
    clear hmem hc
    unfold reconcileTopic at hany ⊢
    simp only [] at hany ⊢
    repeat' split
    all_goals simp_all [isClose, isClientCreated, List.filter_cons, List.getLast?_append]
  · intro hno
    unfold reconcileTopic at hno ⊢
    simp only [] at hno ⊢
    repeat' split
    all_goals simp_all [isClose, isClientCreated, List.filter_cons]
  · intro ⟨c, hmem, hc⟩
    have hany : (deleteTopic r topic).log.any isClientCreated = true :=
      List.any_eq_true.mpr ⟨c, hmem, hc⟩
    clear hmem hc
    unfold deleteTopic at hany ⊢
    simp only [] at hany ⊢
    repeat' split
    all_goals simp_all [isClose, isClientCreated, List.filter_cons, List.getLast?_append]
  · intro hno
    unfold deleteTopic at hno ⊢
    simp only [] at hno ⊢
    repeat' split
    all_goals simp_all [isClose, isClientCreated, List.filter_cons]

end TopicReconciler

namespace TopicReconciler

/-- C18 at the sample Topic: with a client created, `Close` is the one last
call of `reconcileTopic` and of `deleteTopic`; with a client factory that
fails, `Close` is not called. -/
theorem C18_client_closed_witness :
    ((reconcileTopic sampleReconciler sampleTopic).log.filter isClose = [.Close] ∧
      (reconcileTopic sampleReconciler sampleTopic).log.getLast? = some .Close) ∧
    (reconcileTopic (withCreateClient sampleReconciler (some { msg := "no credentials" }))
      sampleTopic).log.filter isClose = [] ∧
    ((deleteTopic sampleReconciler sampleTopicReconciled).log.filter isClose = [.Close] ∧
      (deleteTopic sampleReconciler sampleTopicReconciled).log.getLast? = some .Close) ∧
    (deleteTopic sampleReconciler sampleTopic).log.filter isClose = [] :=
  ⟨(C18_client_closed sampleReconciler sampleTopic).1
      ⟨.createClientFn "my-project" none, by decide, rfl⟩,
   (C18_client_closed (withCreateClient sampleReconciler (some { msg := "no credentials" }))
      sampleTopic).2.1 (by decide),
   (C18_client_closed sampleReconciler sampleTopicReconciled).2.2.1
      ⟨.createClientFn "my-project" none, by decide, rfl⟩,
   (C18_client_closed sampleReconciler sampleTopic).2.2.2 (by decide)⟩

end TopicReconciler

/-! ## Facts about the CloudStorageSource status -/

namespace Conditions

/-- Writing a condition over one of the same type leaves what writing it alone
leaves. -/
theorem SetCondition_overwrite (cs : List Condition) (c d : Condition)
    (h : c.ctype = d.ctype) :
    SetCondition (SetCondition cs c) d = SetCondition cs d := by
  have hpres : (SetCondition cs c).any (fun x => x.ctype = d.ctype) = true := by
    rw [List.any_eq_true]
    exact ⟨c, mem_SetCondition_self cs c, by simpa using h⟩
  by_cases hany : cs.any (fun x => x.ctype = c.ctype) = true
  · have hany2 : cs.any (fun x => x.ctype = d.ctype) = true := by rw [← h]; exact hany
    have e1 : SetCondition cs c = cs.map (fun x => if x.ctype = c.ctype then c else x) := by
      unfold SetCondition; rw [if_pos hany]
    have e2 : SetCondition cs d = cs.map (fun x => if x.ctype = d.ctype then d else x) := by
      unfold SetCondition; rw [if_pos hany2]
    have e3 : SetCondition (SetCondition cs c) d =
        (SetCondition cs c).map (fun x => if x.ctype = d.ctype then d else x) := by
      unfold SetCondition at hpres ⊢; rw [if_pos hpres]
    rw [e3, e1, e2, List.map_map]
    apply List.map_congr_left
    intro x _
    by_cases hx : x.ctype = c.ctype
    · have hxd : x.ctype = d.ctype := hx.trans h
      simp [hx, hxd, h]
    · have hxd : ¬ x.ctype = d.ctype := fun e => hx (e.trans h.symm)
      simp [hx, hxd]
  · have hany2 : ¬ cs.any (fun x => x.ctype = d.ctype) = true := by rw [← h]; exact hany
    have e1 : SetCondition cs c = cs ++ [c] := by
      unfold SetCondition; rw [if_neg hany]
    have e2 : SetCondition cs d = cs ++ [d] := by
      unfold SetCondition; rw [if_neg hany2]
    have e3 : SetCondition (SetCondition cs c) d =
        (SetCondition cs c).map (fun x => if x.ctype = d.ctype then d else x) := by
      unfold SetCondition at hpres ⊢; rw [if_pos hpres]
    rw [e3, e1, e2, List.map_append]
    have hcs : cs.map (fun x => if x.ctype = d.ctype then d else x) = cs := by
      rw [map_eq_self]
      intro x hx
      have hxd : ¬ x.ctype = d.ctype := by
        intro e
        apply hany2
        rw [List.any_eq_true]
        exact ⟨x, hx, by simpa using e⟩
      rw [if_neg hxd]
    rw [hcs]
    simp [h]

/-- Marking a condition True, then False, then True again leaves what marking
it True once leaves. -/
theorem MarkTrue_MarkFalse_MarkTrue (cs : List Condition) (t reason message : String) :
    MarkTrue (MarkFalse (MarkTrue cs t) t reason message) t = MarkTrue cs t := by
  unfold MarkTrue MarkFalse
  rw [SetCondition_overwrite (SetCondition cs { ctype := t, status := .ConditionTrue })
      { ctype := t, status := .ConditionFalse, reason := reason, message := message }
      { ctype := t, status := .ConditionTrue } rfl,
    SetCondition_overwrite cs { ctype := t, status := .ConditionTrue }
      { ctype := t, status := .ConditionTrue } rfl]

/-- Initialisation changes no condition that is True, and makes none True. -/
theorem IsTrue_InitializeConditions (deps : List String) (cs : List Condition) (t : String) :
    IsTrue (InitializeConditions deps cs) t = IsTrue cs t := by
  induction deps generalizing cs with
  | nil => rfl
  | cons d ds ih =>
    rw [InitializeConditions_cons, ih]
    cases hg : GetCondition cs d with
    | some c => rfl
    | none =>
      simp only []
      by_cases ht : t = d
      · subst ht
        unfold IsTrue
        rw [GetCondition_SetCondition_same cs { ctype := t, status := .ConditionUnknown }, hg]
        rfl
      · unfold IsTrue
        rw [GetCondition_SetCondition_other cs _ t ht]

theorem IsTrue_SetCondition (cs : List Condition) (c : Condition) (t : String) :
    IsTrue (SetCondition cs c) t =
      if t = c.ctype then decide (c.status = .ConditionTrue) else IsTrue cs t := by
  by_cases ht : t = c.ctype
  · subst ht
    unfold IsTrue
    rw [GetCondition_SetCondition_same, if_pos rfl]
  · unfold IsTrue
    rw [GetCondition_SetCondition_other cs c t ht, if_neg ht]

end Conditions

namespace Events

/-- The effect of one `Mark*` call on whether a condition is True: the
condition it writes is True exactly when the call marks True, every other one
is as before. -/
theorem IsTrue_apply (s : CloudStorageSourceStatus) (op : Mark) (t : String) :
    Conditions.IsTrue (op.apply s).Conditions t =
      if t = op.target then op.marksTrue else Conditions.IsTrue s.Conditions t := by
  cases op <;>
    simp [Mark.apply, Mark.target, Mark.marksTrue,
      CloudStorageSourceStatus.MarkPullSubscriptionFailed,
      CloudStorageSourceStatus.MarkPullSubscriptionUnknown,
      CloudStorageSourceStatus.MarkPullSubscriptionReady,
      CloudStorageSourceStatus.MarkTopicFailed, CloudStorageSourceStatus.MarkTopicUnknown,
      CloudStorageSourceStatus.MarkTopicReady, CloudStorageSourceStatus.MarkNotificationNotReady,
      CloudStorageSourceStatus.MarkNotificationReady, Conditions.MarkFalse, Conditions.MarkTrue,
      Conditions.MarkUnknown, Conditions.IsTrue_SetCondition]

theorem applyMarks_cons (s : CloudStorageSourceStatus) (op : Mark) (ops : List Mark) :
    applyMarks s (op :: ops) = applyMarks (op.apply s) ops := rfl

/-- A condition that is True after a sequence of `Mark*` calls was True before
it or has been marked True by one of the calls. -/
theorem IsTrue_applyMarks (ops : List Mark) (s : CloudStorageSourceStatus) (t : String)
    (h : Conditions.IsTrue (applyMarks s ops).Conditions t = true) :
    Conditions.IsTrue s.Conditions t = true ∨
      ∃ op ∈ ops, op.target = t ∧ op.marksTrue = true := by
  induction ops generalizing s with
  | nil => exact Or.inl h
  | cons op ops ih =>
    rw [applyMarks_cons] at h
    rcases ih (op.apply s) h with h1 | ⟨o, ho, h2⟩
    · rw [IsTrue_apply] at h1
      by_cases ht : t = op.target
      · rw [if_pos ht] at h1
        exact Or.inr ⟨op, List.mem_cons_self _ _, ht.symm, h1⟩
      · rw [if_neg ht] at h1
        exact Or.inl h1
    · exact Or.inr ⟨o, List.mem_cons_of_mem _ ho, h2⟩

theorem IsReady_iff (s : CloudStorageSourceStatus) :
    s.IsReady = true ↔ ∀ t ∈ storageCondSet, Conditions.IsTrue s.Conditions t = true := by
  unfold CloudStorageSourceStatus.IsReady Conditions.IsHappy
  rw [List.all_eq_true]

end Events

namespace Events

/-- C15, against the claim as first stated: `InitializeConditions` keeps the
conditions that are set, so on the sample status whose three dependent
conditions are True already, `InitializeConditions` followed immediately by
`IsReady` returns true. -/
theorem C15_initialize_keeps_ready_counterexample :
    sampleReadyStatus.InitializeConditions.IsReady = true ∧
    sampleReadyStatus.InitializeConditions = sampleReadyStatus := by
  decide

/-- C15, amended: `IsReady` is true exactly when the pull subscription, topic
and notification conditions are all True.  On a status in which one of them is
not True, `InitializeConditions` followed by `IsReady` returns false.  After
`InitializeConditions` and any sequence of `Mark*` calls, `IsReady` is true only
if each dependent condition was True in the starting status or has been marked
True by one of the calls; so from a status in which none of them is True,
`IsReady` stays false until each of the three has been explicitly marked True.
Marking the three True in a row makes any status ready. -/
theorem C15_ready_needs_all_true (s : CloudStorageSourceStatus) (ops : List Mark) :
    (s.IsReady = true ↔ ∀ t ∈ storageCondSet, Conditions.IsTrue s.Conditions t = true) ∧
    ((∃ t ∈ storageCondSet, Conditions.IsTrue s.Conditions t = false) →
      s.InitializeConditions.IsReady = false) ∧
    ((applyMarks s.InitializeConditions ops).IsReady = true →
      ∀ t ∈ storageCondSet, Conditions.IsTrue s.Conditions t = true ∨
        ∃ op ∈ ops, op.target = t ∧ op.marksTrue = true) ∧
    ((∀ t ∈ storageCondSet, Conditions.IsTrue s.Conditions t = false) →
      (applyMarks s.InitializeConditions ops).IsReady = true →
      ∀ t ∈ storageCondSet, ∃ op ∈ ops, op.target = t ∧ op.marksTrue = true) ∧
    (∀ notificationID,
      (applyMarks s [.PullSubscriptionReady, .TopicReady, .NotificationReady notificationID]).IsReady
        = true) := by
  have hinit : ∀ t, Conditions.IsTrue s.InitializeConditions.Conditions t =
      Conditions.IsTrue s.Conditions t :=
    fun t => Conditions.IsTrue_InitializeConditions storageCondSet s.Conditions t
  have hgen : (applyMarks s.InitializeConditions ops).IsReady = true →
      ∀ t ∈ storageCondSet, Conditions.IsTrue s.Conditions t = true ∨
        ∃ op ∈ ops, op.target = t ∧ op.marksTrue = true := by
    intro hready t ht
    have h1 := (IsReady_iff _).mp hready t ht
    rcases IsTrue_applyMarks ops _ t h1 with h2 | h2
    · rw [hinit] at h2; exact Or.inl h2
    · exact Or.inr h2
  refine ⟨IsReady_iff s, ?_, hgen, ?_, ?_⟩
  · intro ⟨t, ht, hf⟩
    cases hr : s.InitializeConditions.IsReady with
    | false => rfl
    | true =>
      have h1 := (IsReady_iff _).mp hr t ht
      rw [hinit, hf] at h1
      exact absurd h1 (by simp)
  · intro hnone hready t ht
    rcases hgen hready t ht with h1 | h1
    · rw [hnone t ht] at h1; exact absurd h1 (by simp)
    · exact h1
  · intro notificationID
    rw [IsReady_iff]
    intro t ht
    simp only [applyMarks, List.foldl_cons, List.foldl_nil, IsTrue_apply, Mark.target,
      Mark.marksTrue]
    simp only [storageCondSet, List.mem_cons, List.mem_singleton, List.not_mem_nil,
      or_false] at ht
    rcases ht with e | e | e <;> subst e <;>
      simp [PullSubscriptionReady, TopicReady, NotificationReady]

/-- C15 amended, at a fresh status: after `InitializeConditions` it is not
ready; it is still not ready once only the topic is marked True; and once it
is ready after three calls, each dependent condition has been marked True by
one of them. -/
theorem C15_ready_needs_all_true_witness :
    (∀ t ∈ storageCondSet,
      Conditions.IsTrue ({} : CloudStorageSourceStatus).Conditions t = false) ∧
    ({} : CloudStorageSourceStatus).InitializeConditions.IsReady = false ∧
    (applyMarks ({} : CloudStorageSourceStatus).InitializeConditions [.TopicReady]).IsReady
      = false ∧
    (applyMarks ({} : CloudStorageSourceStatus).InitializeConditions
      [.TopicReady, .NotificationReady "n1", .PullSubscriptionReady]).IsReady = true ∧
    (∀ t ∈ storageCondSet,
      ∃ op ∈ [Mark.TopicReady, .NotificationReady "n1", .PullSubscriptionReady],
        op.target = t ∧ op.marksTrue = true) :=
  ⟨by decide,
   (C15_ready_needs_all_true {} []).2.1 ⟨TopicReady, by decide, by decide⟩,
   by decide, by decide,
   (C15_ready_needs_all_true {} [.TopicReady, .NotificationReady "n1", .PullSubscriptionReady]).2.2.2.1
     (by decide) (by decide)⟩

/-- C16: for each dependent condition, marking it True, then False, then True
again leaves the very status that marking it True once leaves from the same
start, so `IsReady` has the same value in both. -/
theorem C16_true_false_true (s : CloudStorageSourceStatus)
    (reason message notificationID : String) :
    ((s.MarkTopicReady.MarkTopicFailed reason message).MarkTopicReady = s.MarkTopicReady ∧
      ((s.MarkTopicReady.MarkTopicFailed reason message).MarkTopicReady).IsReady =
        s.MarkTopicReady.IsReady) ∧
    ((s.MarkPullSubscriptionReady.MarkPullSubscriptionFailed reason message).MarkPullSubscriptionReady
        = s.MarkPullSubscriptionReady ∧
      ((s.MarkPullSubscriptionReady.MarkPullSubscriptionFailed
          reason message).MarkPullSubscriptionReady).IsReady =
        s.MarkPullSubscriptionReady.IsReady) ∧
    ((((s.MarkNotificationReady notificationID).MarkNotificationNotReady
          reason message).MarkNotificationReady notificationID) =
        s.MarkNotificationReady notificationID ∧
      (((s.MarkNotificationReady notificationID).MarkNotificationNotReady
          reason message).MarkNotificationReady notificationID).IsReady =
        (s.MarkNotificationReady notificationID).IsReady) := by
  have e1 : (s.MarkTopicReady.MarkTopicFailed reason message).MarkTopicReady =
      s.MarkTopicReady := by
    simp only [CloudStorageSourceStatus.MarkTopicReady, CloudStorageSourceStatus.MarkTopicFailed,
      Conditions.MarkTrue_MarkFalse_MarkTrue]
  have e2 : (s.MarkPullSubscriptionReady.MarkPullSubscriptionFailed
      reason message).MarkPullSubscriptionReady = s.MarkPullSubscriptionReady := by
    simp only [CloudStorageSourceStatus.MarkPullSubscriptionReady,
      CloudStorageSourceStatus.MarkPullSubscriptionFailed,
      Conditions.MarkTrue_MarkFalse_MarkTrue]
  have e3 : ((s.MarkNotificationReady notificationID).MarkNotificationNotReady
      reason message).MarkNotificationReady notificationID =
      s.MarkNotificationReady notificationID := by
    simp only [CloudStorageSourceStatus.MarkNotificationReady,
      CloudStorageSourceStatus.MarkNotificationNotReady,
      Conditions.MarkTrue_MarkFalse_MarkTrue]
  exact ⟨⟨e1, by rw [e1]⟩, ⟨e2, by rw [e2]⟩, ⟨e3, by rw [e3]⟩⟩

end Events

/-! ## Facts about the Topic built for a source -/

namespace Resources

/-- C17: for every `TopicArgs`, `MakeTopic` returns a Topic whose namespace,
name and labels are those of the arguments, whose owner references are exactly
one controller reference to the owner (its API version, kind, name and UID,
with `Controller` and `BlockOwnerDeletion` true), and whose spec has the secret
and project of the source spec, the topic of the arguments and the policy
CreateDelete; nothing else is set, and the sink of the source spec is not
read.  The Topics it returns for the arguments of the two tests of
`topic_test.go` are the ones these tests want. -/
theorem C17_make_topic (args : TopicArgs) :
    (MakeTopic args).ObjectMeta.Namespace = args.Namespace ∧
    (MakeTopic args).ObjectMeta.Name = args.Name ∧
    (MakeTopic args).ObjectMeta.Labels = args.Labels ∧
    (MakeTopic args).ObjectMeta.OwnerReferences =
      [{ APIVersion := args.Owner.APIVersion, Kind := args.Owner.Kind, Name := args.Owner.Name,
         UID := args.Owner.UID, Controller := some true, BlockOwnerDeletion := some true }] ∧
    (MakeTopic args).Spec.Secret = args.Spec.Secret ∧
    (MakeTopic args).Spec.Project = args.Spec.Project ∧
    (MakeTopic args).Spec.Topic = args.Topic ∧
    (MakeTopic args).Spec.PropagationPolicy = "CreateDelete" ∧
    (MakeTopic args).ObjectMeta.UID = "" ∧
    (MakeTopic args).ObjectMeta.Generation = 0 ∧
    (MakeTopic args).ObjectMeta.Annotations = [] ∧
    (MakeTopic args).Status = {} ∧
    (∀ sink, MakeTopic { args with Spec := { args.Spec with Sink := sink } } = MakeTopic args) ∧
    MakeTopic storageTestArgs = storageTestWant ∧
    MakeTopic schedulerTestArgs = schedulerTestWant :=
  ⟨rfl, rfl, rfl, rfl, rfl, rfl, rfl, rfl, rfl, rfl, rfl, rfl, fun _ => rfl, by decide,
    by decide⟩

end Resources
